import Mathlib

/-!
A shallow embedding of the tscn_parser repository (Go) in Lean 4, together
with proofs about the embedded code.

Modelling conventions:
* Go strings are `List Char` (`Str`).  All byte-index arithmetic in the
  source operates on ASCII markers, so character positions compose exactly
  like byte positions do.
* Go's `regexp` patterns are implemented as hand-written leftmost-match
  scanners with the same semantics on the fixed patterns the code uses.
* The file system is a map from path to the file's list of lines
  (`none` = the file cannot be opened).  Both passes of the parser trim
  every line, so representing files as line lists is faithful.
* Go `float64` values are modelled as `ℚ`; numeric literal parsing is exact
  rather than rounded (no claim below depends on a float value).
* Go maps are association lists with replace-on-insert (`alistInsert`),
  which keeps keys unique exactly like a Go map does.
* Machine integers are `Int`; bitwise `x & 0xFFFF` on two's-complement is
  `x % 2^16` (Euclidean mod) and arithmetic `x >> 16` is floor division,
  which equals Euclidean division for the positive divisor `2^16`.
* Go run-time panics (nil-pointer dereference, slice bounds) are modelled
  explicitly: `GoOutcome.crash` and `Except.error ()`.
-/

/-- Go strings, as lists of characters. -/
abbrev Str := List Char

/-- Convert a Lean string literal to the `Str` model. -/
def strLit (s : String) : Str := s.data

/-- `startsWith s p` is Go's `strings.HasPrefix(s, p)`. -/
def startsWith : Str → Str → Bool
  | _, [] => true
  | [], _ :: _ => false
  | c :: s, p :: ps => c == p && startsWith s ps

/-- `strContains s sub` is Go's `strings.Contains(s, sub)`. -/
def strContains : Str → Str → Bool
  | [], sub => sub.isEmpty
  | c :: t, sub => startsWith (c :: t) sub || strContains t sub

/-- Characters treated as white space by Go's `strings.TrimSpace` (ASCII part). -/
def isGoSpace (c : Char) : Bool :=
  c == ' ' || c == '\t' || c == '\n' || c == '\x0b' || c == '\x0c' || c == '\r'

/-- Characters matched by the regexp class `\s`. -/
def isRegexSpace (c : Char) : Bool :=
  c == '\t' || c == '\n' || c == '\x0c' || c == '\r' || c == ' '

/-- Word characters, the regexp class `\w`. -/
def isWordChar (c : Char) : Bool :=
  c.isAlphanum || c == '_'

/-- Go's `strings.TrimSpace`. -/
def goTrimSpace (s : Str) : Str :=
  ((s.dropWhile isGoSpace).reverse.dropWhile isGoSpace).reverse

/-- Go's `strings.Trim(s, "\"")`: strip leading and trailing quote characters. -/
def goTrimQuotes (s : Str) : Str :=
  ((s.dropWhile (· == '"')).reverse.dropWhile (· == '"')).reverse

/-- Go's `strings.TrimPrefix`. -/
def goTrimPre (s p : Str) : Str :=
  if startsWith s p then s.drop p.length else s

/-- Fuel-driven worker for `goSplit` (fuel keeps the recursion structural). -/
def goSplitAux (sep : Str) : Nat → Str → Str → List Str
  | 0, s, acc => [acc.reverse ++ s]
  | _ + 1, [], acc => [acc.reverse]
  | fuel + 1, c :: rest, acc =>
    if startsWith (c :: rest) sep then
      acc.reverse :: goSplitAux sep fuel ((c :: rest).drop sep.length) []
    else
      goSplitAux sep fuel rest (c :: acc)

/-- Go's `strings.Split(s, sep)` for a non-empty separator. -/
def goSplit (s sep : Str) : List Str :=
  if sep.isEmpty then [s] else goSplitAux sep (s.length + 1) s []

/-- Go's `strings.SplitN(s, sep, 2)`: split at the first occurrence only. -/
def goSplitN2 : Str → Str → List Str
  | [], sep => if sep.isEmpty then [[]] else [[]]
  | c :: rest, sep =>
    if startsWith (c :: rest) sep ∧ ¬ sep.isEmpty then
      [[], (c :: rest).drop sep.length]
    else
      match goSplitN2 rest sep with
      | [] => [[c]]
      | h :: t => (c :: h) :: t

/-- Go's `strings.Replace(s, old, new, 1)` for a non-empty `old`. -/
def goReplaceFirst (old new : Str) : Str → Str
  | [] => []
  | c :: rest =>
    if startsWith (c :: rest) old then new ++ (c :: rest).drop old.length
    else c :: goReplaceFirst old new rest

/-- Go's `strings.Index(s, sub)`: char position of the first occurrence. -/
def firstIndexOf : Str → Str → Option Nat
  | [], sub => if sub.isEmpty then some 0 else none
  | c :: t, sub =>
    if startsWith (c :: t) sub then some 0
    else (firstIndexOf t sub).map (· + 1)

/-- Go's `strings.LastIndex(s, sub)` for a single-character needle. -/
def lastIndexOfChar (s : Str) (c : Char) : Option Nat :=
  (firstIndexOf s.reverse [c]).map (fun i => s.length - 1 - i)

/-- Go's `strconv.Atoi`: optional sign, then one or more ASCII digits. -/
def goAtoi (s : Str) : Option Int :=
  match s with
  | [] => none
  | c :: rest =>
    let digits := if c == '-' || c == '+' then rest else s
    let neg := c == '-'
    if !digits.isEmpty && digits.all Char.isDigit then
      let n : Nat := digits.foldl (fun acc d => acc * 10 + (d.toNat - 48)) 0
      some (if neg then -(n : Int) else (n : Int))
    else none

/-- Digits of a decimal literal as a natural number. -/
def digitsToNat (ds : Str) : Nat :=
  ds.foldl (fun acc d => acc * 10 + (d.toNat - 48)) 0

/-- Go's `strconv.ParseFloat(s, 64)` on finite decimal literals, modelled
exactly over `ℚ` (hex floats and Inf/NaN are modelled as parse failures;
no proved statement depends on a parsed float value). -/
def goParseFloat (s : Str) : Option ℚ :=
  match s with
  | [] => none
  | c0 :: rest0 =>
    let body := if c0 == '-' || c0 == '+' then rest0 else s
    let neg := c0 == '-'
    let ip := body.takeWhile Char.isDigit
    let afterInt := body.drop ip.length
    let (fp, afterFrac) :=
      match afterInt with
      | '.' :: r => (r.takeWhile Char.isDigit, (r.takeWhile Char.isDigit).length + 1)
      | _ => ([], 0)
    let afterFrac := afterInt.drop afterFrac
    if ip.isEmpty && fp.isEmpty then none
    else
      let mant : ℚ := (digitsToNat (ip ++ fp) : ℚ) / ((10 : ℚ) ^ fp.length)
      let signed : ℚ := if neg then -mant else mant
      match afterFrac with
      | [] => some signed
      | e :: er =>
        if e == 'e' || e == 'E' then
          match er with
          | [] => none
          | d0 :: dr =>
            let eds := if d0 == '-' || d0 == '+' then dr else er
            let eneg := d0 == '-'
            if !eds.isEmpty && eds.all Char.isDigit then
              let ex : ℚ := (10 : ℚ) ^ (digitsToNat eds)
              some (if eneg then signed / ex else signed * ex)
            else none
        else none

/-- Truncating conversion `int(x)` from a Go float, modelled on `ℚ`
(truncation toward zero). -/
def ratTrunc (q : ℚ) : Int := Int.tdiv q.num (q.den : Int)

/-! ## Association lists: the model of Go maps -/

/-- Lookup in a Go map modelled as an association list. -/
def alistFind {V : Type} (k : Str) : List (Str × V) → Option V
  | [] => none
  | (k', v) :: rest => if k' = k then some v else alistFind k rest

/-- Lookup with an `Int` key. -/
def alistFindI {V : Type} (k : Int) : List (Int × V) → Option V
  | [] => none
  | (k', v) :: rest => if k' = k then some v else alistFindI k rest

/-- Go map insert: replace the entry with the same key, else append. -/
def alistInsert {V : Type} (k : Str) (v : V) : List (Str × V) → List (Str × V)
  | [] => [(k, v)]
  | (k', v') :: rest =>
    if k' = k then (k, v) :: rest else (k', v') :: alistInsert k v rest

/-- Go map insert with an `Int` key. -/
def alistInsertI {V : Type} (k : Int) (v : V) : List (Int × V) → List (Int × V)
  | [] => [(k, v)]
  | (k', v') :: rest =>
    if k' = k then (k, v) :: rest else (k', v') :: alistInsertI k v rest

/-- Mutation through a stored pointer: modify the entry at `k` if present. -/
def alistModify {V : Type} (k : Str) (f : V → V) : List (Str × V) → List (Str × V)
  | [] => []
  | (k', v) :: rest =>
    if k' = k then (k', f v) :: rest else (k', v) :: alistModify k f rest

/-- Number of entries with key `k` (an `Int` key). -/
def countKeyI {V : Type} (k : Int) (l : List (Int × V)) : Nat :=
  l.countP (fun p => decide (p.1 = k))

/-- Number of entries with key `k` (a `Str` key). -/
def countKeyS {V : Type} (k : Str) (l : List (Str × V)) : Nat :=
  l.countP (fun p => decide (p.1 = k))

/-- Keys of an association list are pairwise distinct. -/
def AKeysNodupI {V : Type} (l : List (Int × V)) : Prop :=
  l.Pairwise (fun a b => a.1 ≠ b.1)

/-- Keys of an association list are pairwise distinct (`Str` keys). -/
def AKeysNodupS {V : Type} (l : List (Str × V)) : Prop :=
  l.Pairwise (fun a b => a.1 ≠ b.1)

/-! ## Data model (types.go and the node records used by parser.go) -/

/-- 2D vector of Go `float64` components, modelled over `ℚ`. -/
structure Vec2 where
  X : ℚ
  Y : ℚ
deriving DecidableEq, Inhabited

/-- `Vec2.Sub` subtracts componentwise (used for the collider pivot fix-up). -/
def Vec2.SubV (a b : Vec2) : Vec2 := ⟨a.X - b.X, a.Y - b.Y⟩

/-- Integer 2D vector. -/
structure Vec2i where
  X : Int
  Y : Int
deriving DecidableEq, Inhabited

/-- Tile dimensions in pixels. -/
structure TileSize where
  Width : Int
  Height : Int
deriving DecidableEq, Inhabited

/-- An external-resource declaration: `[ext_resource type=... path=... id=...]`. -/
structure ExtResource where
  ID : Str
  Ty : Str
  Path : Str
  UID : Str
deriving DecidableEq, Inhabited

/-- Shape type and dimensions of a collision sub-resource. -/
structure ShapeInfo where
  Ty : Str
  Dimensions : Vec2
  Points : List ℚ
deriving DecidableEq, Inhabited

/-- Information extracted from a prefab .tscn file. -/
structure PrefabInfo where
  Name : Str
  Pivot : Vec2
  ZIndex : Int
  Scale : Vec2
  Rotation : ℚ
  ColliderType : Str
  ColliderPivot : Vec2
  ColliderParams : List ℚ
  Texture : Str
  ColliderParent : Str
deriving DecidableEq, Inhabited

/-- One tile of a tileset source (atlas coordinates plus physics points). -/
structure TileInfo where
  AtlasCoords : Vec2i
  CollisionPoints : List Vec2
deriving DecidableEq, Inhabited

/-- A tileset source. -/
structure TileSource where
  ID : Int
  TexturePath : Str
  Tiles : List TileInfo
deriving DecidableEq, Inhabited

/-- A placed tile decoded by the scanner's 5-integer group reader. -/
structure TileInstance where
  TileCoords : Vec2i
  SourceID : Int
  AtlasCoords : Vec2i
deriving DecidableEq, Inhabited

/-- A tilemap layer. -/
structure Layer where
  ID : Int
  Name : Str
  Tiles : List TileInstance
  ZIndex : Int
  TileData : List Int
deriving DecidableEq, Inhabited

/-- A dynamic property value stored in a node's property bag. -/
inductive PropValue where
  | intVal (n : Int)
  | vecVal (v : Vec2)
  | strVal (s : Str)
deriving DecidableEq, Inhabited

/-- A Sprite2D decorator node. -/
structure DecoratorNode where
  Name : Str
  Parent : Str
  Position : Vec2
  Path : Str
  ZIndex : Int
deriving DecidableEq, Inhabited

/-- An instanced-prefab sprite node. -/
structure SpriteNode where
  Name : Str
  Parent : Str
  Position : Vec2
  Path : Str
  Scale : Vec2
  Ratation : ℚ
  Properties : List (Str × PropValue)
deriving DecidableEq, Inhabited

/-- A standalone prefab entry produced by `buildPrefabNodes`. -/
structure PrefabNode where
  Name : Str
  Path : Str
  Position : Vec2
  Scale : Vec2
  Ratation : ℚ
  Properties : List (Str × PropValue)
  Texture : Str
  Pivot : Vec2
  ZIndex : Int
  ColliderType : Str
  ColliderPivot : Vec2
  ColliderParams : List ℚ
  ColliderParent : Str
deriving DecidableEq, Inhabited

/-- The tileset of the map. -/
structure TileSet where
  Sources : List TileSource
deriving DecidableEq, Inhabited

/-- Alias so that record fields can keep the Go field names. -/
abbrev TileSizeTy := TileSize

/-- Alias so that record fields can keep the Go field names. -/
abbrev TileSetTy := TileSet

/-- The complete tilemap data. -/
structure TileMapData where
  Format : Int
  TileSize : TileSizeTy
  TileSet : TileSetTy
  Layers : List Layer
  WorldTileSize : TileSizeTy
deriving DecidableEq, Inhabited

/-- The root output structure of one parse. -/
structure MapData where
  TileMap : TileMapData
  Decorators : List DecoratorNode
  Sprites : List SpriteNode
  Prefabs : List PrefabNode
deriving DecidableEq, Inhabited

/-- Go `error` values produced by the parser (format strings abstracted). -/
inductive GoError where
  | emptyInput
  | openFailed (path : Str)
  | readFileFailed (path : Str)
  | oddMapSize (w h : Int)
  | prefabsDirNotSet
  | openPrefabFailed (path : Str)
deriving DecidableEq, Inhabited

/-- Result of running a Go function that may panic at run time. -/
inductive GoOutcome (α : Type) where
  | crash
  | val (a : α)
deriving DecidableEq, Inhabited

/-- The package-level configuration globals (`tilemapTileSize`,
`tilemapOffset`, `prefabsDirectory`), set once before a parse. -/
structure Config where
  tilemapTileSize : TileSize
  tilemapOffset : Vec2
  prefabsDirectory : Str
deriving DecidableEq, Inhabited

/-- The default configuration: 16 by 16 tiles, offset (0,0), no prefab dir. -/
def defaultConfig : Config :=
  { tilemapTileSize := ⟨16, 16⟩, tilemapOffset := ⟨0, 0⟩, prefabsDirectory := [] }

/-- The package-level mutable bounding-box accumulators and the tile counter
(`minTileX`, `maxTileX`, `minTileY`, `maxTileY`, `tileTotalCount`). -/
structure GState where
  minTileX : Int
  maxTileX : Int
  minTileY : Int
  maxTileY : Int
  tileTotalCount : Nat
deriving DecidableEq, Inhabited

/-- Reset performed at the top of `convertTSCNToTileMap`: the four bounds
are set to their sentinels; `tileTotalCount` is not reset. -/
def resetGState (g : GState) : GState :=
  { g with minTileX := 1000000, maxTileX := -1000000,
           minTileY := 1000000, maxTileY := -1000000 }

/-- A file system: maps a path to the lines of the file, `none` when the
file cannot be opened. -/
def FileSys : Type := Str → Option (List Str)

/-! ## Regex-substitute extractors

Each of the fixed `regexp` patterns used by parser.go is implemented as a
leftmost-match scanner with the same semantics on that pattern. -/

/-- Leftmost match of `key("` + `[^"]+` + `"`: scan for `key`, capture the
non-empty run up to the next double quote, require the closing quote. -/
def extractQuoted (key : Str) : Str → Option Str
  | [] => none
  | c :: rest =>
    if startsWith (c :: rest) key then
      let after := (c :: rest).drop key.length
      let cap := after.takeWhile (fun ch => ch != '"')
      if !cap.isEmpty && !(after.drop cap.length).isEmpty then some cap
      else extractQuoted key rest
    else extractQuoted key rest

/-- Like `extractQuoted` but additionally requires the character `post`
immediately after the closing quote (for patterns ending in `"\)`). -/
def extractQuotedThen (key : Str) (post : Char) : Str → Option Str
  | [] => none
  | c :: rest =>
    if startsWith (c :: rest) key then
      let after := (c :: rest).drop key.length
      let cap := after.takeWhile (fun ch => ch != '"')
      if !cap.isEmpty && (after.drop (cap.length + 1)).headD ' ' == post
          && !(after.drop cap.length).isEmpty then some cap
      else extractQuotedThen key post rest
    else extractQuotedThen key post rest

/-- All matches of `\sid="([^"]+)"` in order (non-overlapping, leftmost),
fuel-driven to keep the recursion structural. -/
def extractAllIdAux : Nat → Str → List Str
  | 0, _ => []
  | _ + 1, [] => []
  | fuel + 1, c :: rest =>
    if isRegexSpace c && startsWith rest (strLit "id=\"") then
      let after := rest.drop 4
      let cap := after.takeWhile (fun ch => ch != '"')
      if !cap.isEmpty && !(after.drop cap.length).isEmpty then
        cap :: extractAllIdAux fuel (after.drop (cap.length + 1))
      else extractAllIdAux fuel rest
    else extractAllIdAux fuel rest

/-- All matches of `\sid="([^"]+)"`. -/
def extractAllId (s : Str) : List Str := extractAllIdAux (s.length + 1) s

/-- Leftmost match of `type="(\w+Shape2D)"`. -/
def extractShapeTypeAux : Str → Option Str
  | [] => none
  | c :: rest =>
    if startsWith (c :: rest) (strLit "type=\"") then
      let after := (c :: rest).drop 6
      let run := after.takeWhile isWordChar
      if run.length ≥ 8 && startsWith run.reverse (strLit "Shape2D").reverse
          && (after.drop run.length).headD ' ' == '"' then some run
      else extractShapeTypeAux rest
    else extractShapeTypeAux rest

/-- Leftmost match of `sources/(\d+)`: the digit run after `sources/`. -/
def extractDigitsAfter (key : Str) : Str → Option Str
  | [] => none
  | c :: rest =>
    if startsWith (c :: rest) key then
      let after := (c :: rest).drop key.length
      let run := after.takeWhile Char.isDigit
      if !run.isEmpty then some run else extractDigitsAfter key rest
    else extractDigitsAfter key rest

/-- Leftmost match of `layer_(\d+)/`: digit run that must be followed by `/`. -/
def extractDigitsSlash (key : Str) : Str → Option Str
  | [] => none
  | c :: rest =>
    if startsWith (c :: rest) key then
      let after := (c :: rest).drop key.length
      let run := after.takeWhile Char.isDigit
      if !run.isEmpty && (after.drop run.length).headD ' ' == '/' then some run
      else extractDigitsSlash key rest
    else extractDigitsSlash key rest

/-- Leftmost match of `Vector2\(([^,]+),\s*([^)]+)\)`: the two raw captures. -/
def extractVector2Caps : Str → Option (Str × Str)
  | [] => none
  | c :: rest =>
    if startsWith (c :: rest) (strLit "Vector2(") then
      let after := (c :: rest).drop 8
      let m1 := after.takeWhile (fun ch => ch != ',')
      if !m1.isEmpty && !(after.drop m1.length).isEmpty then
        let rest2 := after.drop (m1.length + 1)
        let raw := rest2.takeWhile (fun ch => ch != ')')
        if !raw.isEmpty && !(rest2.drop raw.length).isEmpty then
          let ws := raw.takeWhile isRegexSpace
          let m2 := if ws.length = raw.length then [raw.getLastD ' ']
                    else raw.drop ws.length
          some (m1, m2)
        else extractVector2Caps rest
      else extractVector2Caps rest
    else extractVector2Caps rest

/-- Leftmost match of `PackedVector2Array\(([^)]+)\)`: the capture. -/
def extractParenContent (key : Str) : Str → Option Str
  | [] => none
  | c :: rest =>
    if startsWith (c :: rest) key then
      let after := (c :: rest).drop key.length
      let cap := after.takeWhile (fun ch => ch != ')')
      if !cap.isEmpty && !(after.drop cap.length).isEmpty then some cap
      else extractParenContent key rest
    else extractParenContent key rest

/-! ## Field extraction helpers built on the scanners -/

/-- `extractSubResourceID`: first match of `id="([^"]+)"` (empty if none). -/
def extractSubResourceID (line : Str) : Str :=
  (extractQuoted (strLit "id=\"") line).getD []

/-- `extractShapeType`: first match of `type="(\w+Shape2D)"` (empty if none). -/
def extractShapeType (line : Str) : Str :=
  (extractShapeTypeAux line).getD []

/-- `extractExtResourceID`: first match of `ExtResource\("([^"]+)"\)`. -/
def extractExtResourceID (line : Str) : Str :=
  (extractQuotedThen (strLit "ExtResource(\"") ')' line).getD []

/-- `extractSubResourceReference`: first match of `SubResource\("([^"]+)"\)`. -/
def extractSubResourceReference (line : Str) : Str :=
  (extractQuotedThen (strLit "SubResource(\"") ')' line).getD []

/-- `extractIntValue`: integer after the first `=` (0 on parse failure). -/
def extractIntValue (line : Str) : Int :=
  match goSplit line (strLit "=") with
  | _ :: p1 :: _ => (goAtoi (goTrimSpace p1)).getD 0
  | _ => 0

/-- `extractSourceID`: first match of `sources/(\d+)`, -1 when absent. -/
def extractSourceID (line : Str) : Int :=
  match extractDigitsAfter (strLit "sources/") line with
  | some run => (goAtoi run).getD 0
  | none => -1

/-- `extractLayerID`: first match of `layer_(\d+)/`, 0 when absent. -/
def extractLayerID (line : Str) : Int :=
  match extractDigitsSlash (strLit "layer_") line with
  | some run => (goAtoi run).getD 0
  | none => 0

/-- `extractVector2`: decode `Vector2(x, y)`; (0,0) on any failure. -/
def extractVector2 (line : Str) : Vec2 :=
  match extractVector2Caps line with
  | none => ⟨0, 0⟩
  | some (m1, m2) =>
    match goParseFloat (goTrimSpace m1), goParseFloat (goTrimSpace m2) with
    | some x, some y => ⟨x, y⟩
    | _, _ => ⟨0, 0⟩

/-- Consecutive float pairs of a comma-separated list (ill-formed pairs and
a trailing odd element are skipped, as in `extractPolygonPoints`). -/
def pairFloats : List Str → List Vec2
  | p1 :: p2 :: rest =>
    match goParseFloat (goTrimSpace p1), goParseFloat (goTrimSpace p2) with
    | some x, some y => ⟨x, y⟩ :: pairFloats rest
    | _, _ => pairFloats rest
  | _ => []

/-- `extractPolygonPoints`: decode `PackedVector2Array(...)` into points. -/
def extractPolygonPoints (line : Str) : List Vec2 :=
  match extractParenContent (strLit "PackedVector2Array(") line with
  | none => []
  | some content => pairFloats (goSplit content (strLit ","))

/-- Flatten points into the x,y,x,y float list used for polygon params. -/
def flattenPts (ps : List Vec2) : List ℚ :=
  ps.foldl (fun acc p => acc ++ [p.X, p.Y]) []

/-- Comma-separated integers, skipping entries `strconv.Atoi` rejects. -/
def parseCSVInts (s : Str) : List Int :=
  (goSplit s (strLit ",")).foldl
    (fun acc part =>
      match goAtoi (goTrimSpace part) with
      | some v => acc ++ [v]
      | none => acc) []

/-- Go's `fmt.Sprintf("%d", n)` for the layer name. -/
def intToStr (n : Int) : Str :=
  if n < 0 then '-' :: Nat.toDigits 10 n.natAbs else Nat.toDigits 10 n.natAbs

/-! ## The tile codec (`convertTileDataFormat`) -/

/-- Go `x & 0xFFFF` on a two's-complement integer. -/
def goAnd16 (x : Int) : Int := x % 65536

/-- Go arithmetic shift `x >> 16` (floor division; for the positive divisor
65536 Euclidean division coincides with floor division). -/
def goShr16 (x : Int) : Int := x / 65536

/-- The 16-bit sign correction applied to masked tile coordinates. -/
def signExtend16 (v : Int) : Int := if v ≥ 32768 then v - 65536 else v

/-- The tile offset in tile units derived from the configured pixel offset
(`int(tilemapOffset.X / float64(tilemapTileSize.Width))`, same for Y). -/
def tileOffsetXY (cfg : Config) : Int × Int :=
  (ratTrunc (cfg.tilemapOffset.X / (cfg.tilemapTileSize.Width : ℚ)),
   ratTrunc (cfg.tilemapOffset.Y / (cfg.tilemapTileSize.Height : ℚ)))

/-- The encoding of a tile position used by the source format:
`((y & 0xFFFF) << 16) | (x & 0xFFFF)` (the two bit ranges are disjoint, so
the bitwise or is addition). -/
def encodePos (x y : Int) : Int := goAnd16 y * 65536 + goAnd16 x

/-- The bounds/counter update performed for one decoded tile: the four
bounds take the pre-offset tile coordinates, `tileTotalCount` is bumped. -/
def tileBoundsUpd (g : GState) (tileX tileY : Int) : GState :=
  { minTileX := if tileX < g.minTileX then tileX else g.minTileX,
    maxTileX := if tileX > g.maxTileX then tileX else g.maxTileX,
    minTileY := if tileY < g.minTileY then tileY else g.minTileY,
    maxTileY := if tileY > g.maxTileY then tileY else g.maxTileY,
    tileTotalCount := g.tileTotalCount + 1 }

/-- `convertTileDataFormat`: decode 3-integer groups
`[encodedPos, sourceID, encodedAtlas]` into 5-integer groups
`[sourceID, tileX, -tileY, atlasX, atlasY]`, updating the global
bounding-box accumulators and the tile counter. -/
def convertTileDataFormat (cfg : Config) : List Int → GState → List Int × GState
  | tilePos :: sourceID :: atlasEncoded :: rest, g =>
    let tileX := signExtend16 (goAnd16 tilePos)
    let tileY := signExtend16 (goAnd16 (goShr16 tilePos))
    let atlasX := goAnd16 atlasEncoded
    let atlasY := goAnd16 (goShr16 atlasEncoded)
    let off := tileOffsetXY cfg
    let r := convertTileDataFormat cfg rest (tileBoundsUpd g tileX tileY)
    (sourceID :: (tileX + off.1) :: -(tileY + off.2) :: atlasX :: atlasY :: r.1, r.2)
  | _, g => ([], g)

/-! ## `parseLayersFromTSCN`: the dedicated tile-layer extraction pass -/

/-- Loop state of `parseLayersFromTSCN`. -/
structure LayState where
  currentLayerID : Int
  currentLayerName : Str
  currentZIndex : Int
  currentTileData : List Int
  layers : List Layer
  g : GState

/-- The `layer_<N>/name` branch of the `parseLayersFromTSCN` loop. -/
def layNameStep (line : Str) (st : LayState) : LayState :=
  if strContains line (strLit "/name = ") then
    match goSplit line (strLit "/name = ") with
    | [p0, p1] =>
      match goAtoi (goReplaceFirst (strLit "layer_") [] p0) with
      | some lid =>
        { st with currentLayerID := lid, currentLayerName := goTrimQuotes p1 }
      | none => st
    | _ => st
  else st

/-- The `layer_<N>/z_index` branch of the `parseLayersFromTSCN` loop. -/
def layZStep (line : Str) (st : LayState) : LayState :=
  if strContains line (strLit "/z_index = ") then
    match goSplit line (strLit "/z_index = ") with
    | [_, p1] =>
      match goAtoi (goTrimSpace p1) with
      | some z => { st with currentZIndex := z }
      | none => st
    | _ => st
  else st

/-- The `layer_<N>/tile_data` branch of the `parseLayersFromTSCN` loop
(guarded slice: conversion happens only when `end > start`). -/
def layTileStep (cfg : Config) (line : Str) (st : LayState) : LayState :=
  if strContains line (strLit "/tile_data = PackedInt32Array(") && st.currentLayerID ≥ 0 then
    match firstIndexOf line (strLit "PackedInt32Array(") with
    | none => st
    | some i =>
      let start := i + 17
      match lastIndexOfChar line ')' with
      | none => st
      | some e =>
        if start < e then
          let dataStr := (line.drop start).take (e - start)
          let newTileData := st.currentTileData ++ parseCSVInts dataStr
          let conv := convertTileDataFormat cfg newTileData st.g
          let layer : Layer :=
            { ID := st.currentLayerID, Name := st.currentLayerName, Tiles := [],
              ZIndex := st.currentZIndex, TileData := conv.1 }
          { currentLayerID := -1, currentLayerName := [], currentZIndex := 0,
            currentTileData := [], layers := st.layers ++ [layer], g := conv.2 }
        else st
  else st

/-- One line of the `parseLayersFromTSCN` loop: the three branches are
checked in sequence on the same trimmed line. -/
def layersLineStep (cfg : Config) (st : LayState) (rawLine : Str) : LayState :=
  let line := goTrimSpace rawLine
  layTileStep cfg line (layZStep line (layNameStep line st))

/-- `parseLayersFromTSCN`: re-read the raw document and extract the layers,
decoding each packed tile array with `convertTileDataFormat`. -/
def parseLayersFromTSCN (fs : FileSys) (cfg : Config) (g : GState)
    (filename : Str) : (Option (List Layer) × Option GoError) × GState :=
  match fs filename with
  | none => ((none, some (.readFileFailed filename)), g)
  | some lines =>
    let st := lines.foldl (layersLineStep cfg)
      { currentLayerID := -1, currentLayerName := [], currentZIndex := 0,
        currentTileData := [], layers := [], g := g }
    ((some st.layers, none), st.g)

/-! ## The converter state (`TSCNConverter`) and single-line handlers -/

/-- The mutable state of one `TSCNConverter` instance. -/
structure Conv where
  tileSize : TileSizeTy
  sources : List (Int × TileSource)
  extResources : List (Str × ExtResource)
  subResourceTextures : List (Str × Str)
  tilePhysicsData : List (Str × List Vec2)
  decorators : List DecoratorNode
  currentDecorator : Option DecoratorNode
  sprites : List SpriteNode
  currentSprite : Option SpriteNode
  prefabCache : List (Str × PrefabInfo)
  subResourceShapes : List (Str × ShapeInfo)
deriving DecidableEq, Inhabited

/-- `newTSCNConverter`: the fresh converter state. -/
def newTSCNConverter : Conv :=
  { tileSize := ⟨16, 16⟩, sources := [], extResources := [],
    subResourceTextures := [], tilePhysicsData := [], decorators := [],
    currentDecorator := none, sprites := [], currentSprite := none,
    prefabCache := [], subResourceShapes := [] }

/-- The `ExtResource` record a line declares (fields default to empty). -/
def mkExtResource (line : Str) : ExtResource :=
  { Ty := (extractQuoted (strLit "type=\"") line).getD [],
    Path := (extractQuoted (strLit "path=\"") line).getD [],
    ID := ((extractAllId line).getLast?).getD [],
    UID := (extractQuoted (strLit "uid=\"") line).getD [] }

/-- `parseExtResource`: store the declared resource keyed by its id. -/
def parseExtResource (line : Str) (c : Conv) : Conv :=
  let r := mkExtResource line
  if r.ID.isEmpty then c
  else { c with extResources := alistInsert r.ID r c.extResources }

/-- `calculateTileSizeFromPoints`: bounding-box width/height of the points
(truncated to int), or the current tile size for fewer than 4 points. -/
def calculateTileSizeFromPoints (c : Conv) (points : List Vec2) : TileSize :=
  match points with
  | [] => c.tileSize
  | p0 :: _ =>
    if points.length < 4 then c.tileSize
    else
      let minX := points.foldl (fun m p => if p.X < m then p.X else m) p0.X
      let maxX := points.foldl (fun m p => if p.X > m then p.X else m) p0.X
      let minY := points.foldl (fun m p => if p.Y < m then p.Y else m) p0.Y
      let maxY := points.foldl (fun m p => if p.Y > m then p.Y else m) p0.Y
      ⟨ratTrunc (maxX - minX), ratTrunc (maxY - minY)⟩

/-- The `TileSource` record built by the `sources/` branch of
`parseSubResource` from the current converter state and the line. -/
def mkTileSource (c : Conv) (line : Str) : TileSource :=
  let sourceID := extractSourceID line
  let subResourceID := extractSubResourceReference line
  let texturePath :=
    if subResourceID.isEmpty then strLit "unknown"
    else
      match alistFind subResourceID c.subResourceTextures with
      | some extResourceID =>
        match alistFind extResourceID c.extResources with
        | some extRes => extRes.Path
        | none => strLit "unknown"
      | none => strLit "unknown"
  let physicsData :=
    if subResourceID.isEmpty then []
    else
      match alistFind subResourceID c.tilePhysicsData with
      | some points => points
      | none => []
  { ID := sourceID, TexturePath := texturePath,
    Tiles := [{ AtlasCoords := ⟨0, 0⟩, CollisionPoints := physicsData }] }

/-- `parseSubResource`: dispatch a sub-resource content line by its prefix. -/
def parseSubResource (line resourceID : Str) (c : Conv) : Conv :=
  if startsWith line (strLit "texture = ExtResource(") then
    let extResourceID := extractExtResourceID line
    if !extResourceID.isEmpty && !resourceID.isEmpty then
      { c with subResourceTextures :=
          (alistInsert resourceID extResourceID c.subResourceTextures) }
    else c
  else if startsWith line (strLit "size = Vector2(") then
    match alistFind resourceID c.subResourceShapes with
    | some _ =>
      { c with subResourceShapes :=
          (alistModify resourceID
            (fun sh => { sh with Dimensions := extractVector2 line })
            c.subResourceShapes) }
    | none => c
  else if startsWith line (strLit "radius = ") then
    match alistFind resourceID c.subResourceShapes with
    | some _ =>
      match goSplit line (strLit "=") with
      | _ :: p1 :: _ =>
        let radius := (goParseFloat (goTrimSpace p1)).getD 0
        { c with subResourceShapes :=
            (alistModify resourceID
              (fun sh => { sh with Dimensions := ⟨radius, 0⟩ })
              c.subResourceShapes) }
      | _ => c
    | none => c
  else if startsWith line (strLit "points = PackedVector2Array(") then
    match alistFind resourceID c.subResourceShapes with
    | some _ =>
      let points := extractPolygonPoints line
      { c with subResourceShapes :=
          (alistModify resourceID
            (fun sh => { sh with Points := sh.Points ++ flattenPts points })
            c.subResourceShapes) }
    | none => c
  else if startsWith line (strLit "0:0/0/physics_layer_0/polygon_0/points") then
    let points := extractPolygonPoints line
    if points.length ≥ 4 then
      { c with tileSize := calculateTileSizeFromPoints c points,
               tilePhysicsData := alistInsert resourceID points c.tilePhysicsData }
    else c
  else if startsWith line (strLit "sources/") then
    let sourceID := extractSourceID line
    if sourceID ≠ -1 then
      { c with sources := alistInsertI sourceID (mkTileSource c line) c.sources }
    else c
  else c

/-- `parseDecoratorNode`: a fresh decorator from a Sprite2D header line. -/
def parseDecoratorNode (line : Str) : DecoratorNode :=
  { Name := (extractQuoted (strLit "name=\"") line).getD [],
    Parent := (extractQuoted (strLit "parent=\"") line).getD [],
    Position := ⟨0, 0⟩, Path := strLit "unknown", ZIndex := 0 }

/-- `parseDecoratorProperty`: a content line in the decorator section. -/
def parseDecoratorProperty (line : Str) (c : Conv) : Conv :=
  match c.currentDecorator with
  | none => c
  | some d =>
    if startsWith line (strLit "position = Vector2(") then
      let p := extractVector2 line
      { c with currentDecorator := some { d with Position := ⟨p.X, -p.Y⟩ } }
    else if startsWith line (strLit "texture = ExtResource(") then
      match alistFind (extractExtResourceID line) c.extResources with
      | some extRes => { c with currentDecorator := some { d with Path := extRes.Path } }
      | none => c
    else if startsWith line (strLit "z_index = ") then
      { c with currentDecorator := some { d with ZIndex := extractIntValue line } }
    else c

/-- `parseSpriteNode`: a fresh sprite from an `instance=ExtResource` header. -/
def parseSpriteNode (line : Str) (c : Conv) : SpriteNode :=
  let base : SpriteNode :=
    { Name := (extractQuoted (strLit "name=\"") line).getD [],
      Parent := (extractQuoted (strLit "parent=\"") line).getD [],
      Position := ⟨0, 0⟩, Path := strLit "unknown", Scale := ⟨1, 1⟩,
      Ratation := 0, Properties := [] }
  match extractQuotedThen (strLit "instance=ExtResource(\"") ')' line with
  | some extResourceID =>
    match alistFind extResourceID c.extResources with
    | some extRes => { base with Path := extRes.Path }
    | none => base
  | none => base

/-- `parseSpriteProperty`: a content line in the sprite section. -/
def parseSpriteProperty (cfg : Config) (line : Str) (c : Conv) : Conv :=
  match c.currentSprite with
  | none => c
  | some s =>
    if startsWith line (strLit "position = Vector2(") then
      let p := extractVector2 line
      { c with currentSprite :=
          (some { s with Position := ⟨p.X + cfg.tilemapOffset.X, -(p.Y + cfg.tilemapOffset.Y)⟩ }) }
    else if startsWith line (strLit "scale = Vector2(") then
      { c with currentSprite := some { s with Scale := extractVector2 line } }
    else if startsWith line (strLit "rotation = ") then
      match goSplit line (strLit "=") with
      | _ :: p1 :: _ =>
        { c with currentSprite :=
            (some { s with Ratation := (goParseFloat (goTrimSpace p1)).getD 0 }) }
      | _ => c
    else if startsWith line (strLit "gid = ") then
      { c with currentSprite :=
          (some { s with Properties :=
              (alistInsert (strLit "gid") (.intVal (extractIntValue line)) s.Properties) }) }
    else if startsWith line (strLit "zoom = Vector2(") then
      { c with currentSprite :=
          (some { s with Properties :=
              (alistInsert (strLit "zoom") (.vecVal (extractVector2 line)) s.Properties) }) }
    else if strContains line (strLit " = ") && !startsWith line (strLit "[") then
      match goSplitN2 line (strLit " = ") with
      | [key, value] =>
        { c with currentSprite :=
            (some { s with Properties :=
                (alistInsert (goTrimSpace key) (.strVal (goTrimSpace value)) s.Properties) }) }
      | _ => c
    else c

/-! ## The section-state scanner (`convertTSCNToTileMap`'s main loop) -/

/-- The scanner's current section. -/
inductive Sect where
  | start
  | extRes
  | subRes
  | tilemap
  | decorator
  | sprite
  | other
deriving DecidableEq, Inhabited

/-- The full loop state of the scanner. -/
structure ScanSt where
  conv : Conv
  currentSection : Sect
  currentSubResource : Str
  format : Int
  layers : List Layer
deriving DecidableEq, Inhabited

/-- The initial scanner state. -/
def initScanSt : ScanSt :=
  { conv := newTSCNConverter, currentSection := .start,
    currentSubResource := [], format := 0, layers := [] }

/-- Finish the in-progress decorator/sprite when leaving their sections. -/
def finalizeNodes (sec : Sect) (c : Conv) : Conv :=
  let c1 :=
    match sec, c.currentDecorator with
    | .decorator, some d =>
      { c with decorators := c.decorators ++ [d], currentDecorator := none }
    | _, _ => c
  match sec, c1.currentSprite with
  | .sprite, some s =>
    { c1 with sprites := c1.sprites ++ [s], currentSprite := none }
  | _, _ => c1

/-- Group a 5-integer-per-tile array into `TileInstance`s
(`parseTileData`'s loop; a trailing partial group is dropped). -/
def readFiveGroups : List Int → List TileInstance
  | s :: x :: y :: ax :: ay :: rest =>
    { TileCoords := ⟨x, y⟩, SourceID := s, AtlasCoords := ⟨ax, ay⟩ }
      :: readFiveGroups rest
  | _ => []

/-- `parseTileData`: build a `Layer` from a raw 5-integer-group array. -/
def parseTileDataL (layerID : Int) (data : List Int) : Layer :=
  { ID := layerID, Name := strLit "layer_" ++ intToStr layerID,
    Tiles := readFiveGroups data, ZIndex := 0, TileData := [] }

/-- `extractTileData`: text between the end of the first
`PackedInt32Array(` and the last `)`.  The Go source slices
`line[start:end]` without checking `end > start`, so a last `)` strictly
before the content start is a slice-bounds run-time panic (`.error ()`).
Its sibling in `parseLayersFromTSCN` does guard `end > start`. -/
def extractTileData (line : Str) : Except Unit (List Int) :=
  match firstIndexOf line (strLit "PackedInt32Array(") with
  | none => .ok []
  | some i =>
    let start := i + 17
    match lastIndexOfChar line ')' with
    | none => .ok []
    | some e =>
      if e < start then .error ()
      else .ok (parseCSVInts ((line.drop start).take (e - start)))

/-- One line of the section-state scanner.  `.error ()` models the
slice-bounds panic reachable through `extractTileData`. -/
def scanStep (cfg : Config) (st : ScanSt) (rawLine : Str) : Except Unit ScanSt :=
  let line := goTrimSpace rawLine
  if line.isEmpty || startsWith line (strLit "#") then .ok st
  else if startsWith line (strLit "[") then
    if strContains line (strLit "ext_resource") then
      .ok { st with conv := parseExtResource line st.conv, currentSection := .extRes }
    else if strContains line (strLit "sub_resource") then
      let sid := extractSubResourceID line
      let ty := extractShapeType line
      let c :=
        if ty.isEmpty then st.conv
        else { st.conv with subResourceShapes :=
                (alistInsert sid ⟨ty, ⟨0, 0⟩, []⟩ st.conv.subResourceShapes) }
      .ok { st with conv := c, currentSection := .subRes, currentSubResource := sid }
    else if strContains line (strLit "node name=\"TileMap\"") then
      .ok { st with currentSection := .tilemap }
    else if strContains line (strLit "type=\"Sprite2D\"") then
      let c := finalizeNodes st.currentSection st.conv
      .ok { st with conv := { c with currentDecorator := some (parseDecoratorNode line) },
                    currentSection := .decorator }
    else if strContains line (strLit "instance=ExtResource") then
      let c := finalizeNodes st.currentSection st.conv
      .ok { st with conv := { c with currentSprite := some (parseSpriteNode line c) },
                    currentSection := .sprite }
    else
      .ok { st with conv := finalizeNodes st.currentSection st.conv,
                    currentSection := .other }
  else
    match st.currentSection with
    | .extRes => .ok { st with conv := parseExtResource line st.conv }
    | .subRes => .ok { st with conv := parseSubResource line st.currentSubResource st.conv }
    | .decorator => .ok { st with conv := parseDecoratorProperty line st.conv }
    | .sprite => .ok { st with conv := parseSpriteProperty cfg line st.conv }
    | .tilemap =>
      if startsWith line (strLit "format =") then
        .ok { st with format := extractIntValue line }
      else if startsWith line (strLit "layer_") && strContains line (strLit "tile_data") then
        match extractTileData line with
        | .error e => .error e
        | .ok tileData =>
          .ok { st with layers := st.layers ++ [parseTileDataL (extractLayerID line) tileData] }
      else .ok st
    | _ => .ok st

/-- Run the scanner over all lines, stopping at a run-time panic. -/
def scanLines (cfg : Config) : List Str → ScanSt → Except Unit ScanSt
  | [], st => .ok st
  | l :: rest, st =>
    match scanStep cfg st l with
    | .error e => .error e
    | .ok st' => scanLines cfg rest st'

/-- End-of-document finalization of any in-progress decorator/sprite. -/
def finalizeEnd (c : Conv) : Conv :=
  let c1 :=
    match c.currentDecorator with
    | some d => { c with decorators := c.decorators ++ [d], currentDecorator := none }
    | none => c
  match c1.currentSprite with
  | some s => { c1 with sprites := c1.sprites ++ [s], currentSprite := none }
  | none => c1

/-! ## Prefab resolution and enrichment -/

/-- `filepath.Join(dir, rel)` (the `Clean` normalization is abstracted:
joined paths only serve as opaque file-system keys, and a join with a
non-empty directory is non-empty exactly as here). -/
def goJoinPath (a b : Str) : Str := a ++ '/' :: b

/-- `resolvePrefabPath`: strip `res://` and `scenes/`, then join with the
configured prefab directory; empty when no directory is configured. -/
def resolvePrefabPath (cfg : Config) (resPath : Str) : Str :=
  if cfg.prefabsDirectory.isEmpty then []
  else goJoinPath cfg.prefabsDirectory
    (goTrimPre (goTrimPre resPath (strLit "res://")) (strLit "scenes/"))

/-- Sections of the reduced prefab-file scanner. -/
inductive PfSect where
  | blank
  | extRes
  | subRes
  | sprite2d
  | collision
deriving DecidableEq, Inhabited

/-- Loop state of `parsePrefabFile`. -/
structure PfState where
  info : PrefabInfo
  prefabExtResources : List (Str × ExtResource)
  prefabShapes : List (Str × ShapeInfo)
  currentSection : PfSect
  currentSubResource : Str
  inSprite2D : Bool
deriving DecidableEq, Inhabited

/-- The `ExtResource` record the prefab scanner builds (no uid field). -/
def mkExtResourcePf (line : Str) : ExtResource :=
  { Ty := (extractQuoted (strLit "type=\"") line).getD [],
    Path := (extractQuoted (strLit "path=\"") line).getD [],
    ID := ((extractAllId line).getLast?).getD [],
    UID := [] }

/-- Property parsing of `parsePrefabFile` (runs after section dispatch). -/
def pfProps (st : PfState) (line : Str) : PfState :=
  let st :=
    if st.currentSection = .subRes ∧ ¬ st.currentSubResource.isEmpty then
      if startsWith line (strLit "size = Vector2(") then
        match alistFind st.currentSubResource st.prefabShapes with
        | some _ =>
          { st with prefabShapes :=
              (alistModify st.currentSubResource
                (fun sh => { sh with Dimensions := extractVector2 line })
                st.prefabShapes) }
        | none => st
      else if startsWith line (strLit "radius = ") then
        match alistFind st.currentSubResource st.prefabShapes with
        | some _ =>
          match goSplit line (strLit "=") with
          | _ :: p1 :: _ =>
            { st with prefabShapes :=
                (alistModify st.currentSubResource
                  (fun sh => { sh with Dimensions := ⟨(goParseFloat (goTrimSpace p1)).getD 0, 0⟩ })
                  st.prefabShapes) }
          | _ => st
        | none => st
      else if startsWith line (strLit "points = PackedVector2Array(") then
        match alistFind st.currentSubResource st.prefabShapes with
        | some _ =>
          { st with prefabShapes :=
              (alistModify st.currentSubResource
                (fun sh => { sh with Points := sh.Points ++ flattenPts (extractPolygonPoints line) })
                st.prefabShapes) }
        | none => st
      else st
    else st
  let st :=
    if st.inSprite2D ∧ st.currentSection = .sprite2d then
      if startsWith line (strLit "position = Vector2(") then
        { st with info := { st.info with Pivot := extractVector2 line } }
      else if startsWith line (strLit "scale = Vector2(") then
        { st with info := { st.info with Scale := extractVector2 line } }
      else if startsWith line (strLit "rotation = ") then
        match goSplit line (strLit "=") with
        | _ :: p1 :: _ =>
          { st with info := { st.info with Rotation := (goParseFloat (goTrimSpace p1)).getD 0 } }
        | _ => st
      else if startsWith line (strLit "z_index = ") then
        match goSplit line (strLit "=") with
        | _ :: p1 :: _ =>
          { st with info := { st.info with ZIndex := (goAtoi (goTrimSpace p1)).getD 0 } }
        | _ => st
      else if startsWith line (strLit "texture = ExtResource(") then
        match alistFind (extractExtResourceID line) st.prefabExtResources with
        | some extRes => { st with info := { st.info with Texture := extRes.Path } }
        | none => st
      else st
    else st
  if st.currentSection = .collision then
    if startsWith line (strLit "position = Vector2(") then
      { st with info := { st.info with ColliderPivot := extractVector2 line } }
    else if strContains line (strLit "polygon = PackedVector2Array(") then
      { st with info :=
          { st.info with ColliderParams :=
              st.info.ColliderParams ++ flattenPts (extractPolygonPoints line) } }
    else if startsWith line (strLit "shape = SubResource(") then
      match alistFind (extractSubResourceReference line) st.prefabShapes with
      | some shapeInfo =>
        if shapeInfo.Ty = strLit "RectangleShape2D" then
          { st with info :=
              ({ st.info with
                  ColliderType := strLit "rect",
                  ColliderParams := [shapeInfo.Dimensions.X, shapeInfo.Dimensions.Y] }) }
        else if shapeInfo.Ty = strLit "CircleShape2D" then
          { st with info :=
              ({ st.info with
                  ColliderType := strLit "circle",
                  ColliderParams := [shapeInfo.Dimensions.X] }) }
        else if shapeInfo.Ty = strLit "CapsuleShape2D" then
          { st with info := { st.info with ColliderType := strLit "capsule" } }
        else if shapeInfo.Ty = strLit "ConvexPolygonShape2D"
            ∨ shapeInfo.Ty = strLit "ConcavePolygonShape2D" then
          { st with info :=
              ({ st.info with
                  ColliderType := strLit "polygon",
                  ColliderParams := shapeInfo.Points }) }
        else
          { st with info := { st.info with ColliderType := strLit "auto" } }
      | none => st
    else st
  else st

/-- One line of the reduced prefab-file scanner. -/
def pfStep (st : PfState) (rawLine : Str) : PfState :=
  let line := goTrimSpace rawLine
  if line.isEmpty || startsWith line (strLit "#") then st
  else if strContains line (strLit "[ext_resource") then
    let r := mkExtResourcePf line
    let pe := if r.ID.isEmpty then st.prefabExtResources
              else alistInsert r.ID r st.prefabExtResources
    { st with currentSection := .extRes, prefabExtResources := pe }
  else if strContains line (strLit "[sub_resource") then
    let sid := extractSubResourceID line
    let ty := extractShapeType line
    let ps := if ty.isEmpty then st.prefabShapes
              else alistInsert sid ⟨ty, ⟨0, 0⟩, []⟩ st.prefabShapes
    { st with currentSection := .subRes, currentSubResource := sid, prefabShapes := ps }
  else
    let st :=
      if startsWith line (strLit "[node name=") && st.info.Name.isEmpty then
        { st with info :=
            { st.info with Name := (extractQuoted (strLit "name=\"") line).getD st.info.Name } }
      else st
    if strContains line (strLit "type=\"Sprite2D\"") then
      { st with inSprite2D := true, currentSection := .sprite2d }
    else if strContains line (strLit "type=\"CollisionShape2D\"")
        || strContains line (strLit "type=\"CollisionPolygon2D\"") then
      { st with
          inSprite2D := false,
          currentSection := .collision,
          info :=
            ({ st.info with
                ColliderType := strLit "auto",
                ColliderParent :=
                  ((extractQuoted (strLit "parent=\"") line).getD st.info.ColliderParent) }) }
    else
      let st :=
        if startsWith line (strLit "[node ") then
          { st with inSprite2D := false, currentSection := .blank }
        else st
      pfProps st line

/-- `parsePrefabFile`: the reduced single-level parse of a prefab file. -/
def parsePrefabFile (fs : FileSys) (filePath : Str) : Except GoError PrefabInfo :=
  match fs filePath with
  | none => .error (.openPrefabFailed filePath)
  | some lines =>
    let st0 : PfState :=
      { info := { Name := [], Pivot := ⟨0, 0⟩, ZIndex := 0, Scale := ⟨1, 1⟩,
                  Rotation := 0, ColliderType := [], ColliderPivot := ⟨0, 0⟩,
                  ColliderParams := [], Texture := [], ColliderParent := [] },
        prefabExtResources := [], prefabShapes := [],
        currentSection := .blank, currentSubResource := [], inSprite2D := false }
    let st := lines.foldl pfStep st0
    let info := st.info
    .ok (if info.ColliderParent = strLit "." then
          { info with ColliderPivot := info.ColliderPivot.SubV info.Pivot }
         else info)

/-- `getPrefabInfo`: return the cached `PrefabInfo` for a declared path, or
resolve, parse and cache it on first success. -/
def getPrefabInfo (fs : FileSys) (cfg : Config) (c : Conv) (resPath : Str) :
    Except GoError PrefabInfo × Conv :=
  match alistFind resPath c.prefabCache with
  | some info => (.ok info, c)
  | none =>
    let filePath := resolvePrefabPath cfg resPath
    if filePath.isEmpty then (.error .prefabsDirNotSet, c)
    else
      match parsePrefabFile fs filePath with
      | .error e => (.error e, c)
      | .ok info =>
        (.ok info, { c with prefabCache := alistInsert resPath info c.prefabCache })

/-! ## Prefab-list construction (`buildPrefabNodes`) -/

/-- The `PrefabNode` built from one sprite, merged with the prefab info
when `getPrefabInfo` succeeds (name override, texture, pivot, z-index,
collider fields; the prefab scale overwrites and rotations are combined). -/
def buildOnePrefab (fs : FileSys) (cfg : Config) (c : Conv) (sprite : SpriteNode) :
    PrefabNode × Conv :=
  let prefab : PrefabNode :=
    { Name := sprite.Name, Path := sprite.Path, Position := sprite.Position,
      Scale := sprite.Scale, Ratation := sprite.Ratation,
      Properties := sprite.Properties, Texture := [], Pivot := ⟨0, 0⟩,
      ZIndex := 0, ColliderType := [], ColliderPivot := ⟨0, 0⟩,
      ColliderParams := [], ColliderParent := [] }
  match getPrefabInfo fs cfg c sprite.Path with
  | (.ok prefabInfo, c') =>
    ({ prefab with
        Name := prefabInfo.Name,
        Texture := prefabInfo.Texture,
        Pivot := prefabInfo.Pivot,
        ZIndex := prefabInfo.ZIndex,
        ColliderType := prefabInfo.ColliderType,
        ColliderPivot := prefabInfo.ColliderPivot,
        ColliderParams := prefabInfo.ColliderParams,
        ColliderParent := prefabInfo.ColliderParent,
        Scale := prefabInfo.Scale,
        Ratation :=
          (if sprite.Ratation = 0 then prefabInfo.Rotation
           else sprite.Ratation + prefabInfo.Rotation) }, c')
  | (.error _, c') => (prefab, c')

/-- Membership of a name in the seen-name set (`prefabMap`). -/
def memStr (n : Str) : List Str → Bool
  | [] => false
  | s :: rest => n == s || memStr n rest

/-- The fold of `buildPrefabNodes`: build each sprite's prefab in order,
keeping only the first entry for each final name. -/
def buildPrefabNodesAux (fs : FileSys) (cfg : Config) :
    List SpriteNode → Conv → List Str → List PrefabNode × Conv
  | [], c, _ => ([], c)
  | sprite :: rest, c, seen =>
    let pc := buildOnePrefab fs cfg c sprite
    if memStr pc.1.Name seen then buildPrefabNodesAux fs cfg rest pc.2 seen
    else
      let r := buildPrefabNodesAux fs cfg rest pc.2 (pc.1.Name :: seen)
      (pc.1 :: r.1, r.2)

/-- `buildPrefabNodes`: the standalone prefabs list of the output. -/
def buildPrefabNodes (fs : FileSys) (cfg : Config) (c : Conv) :
    List PrefabNode × Conv :=
  buildPrefabNodesAux fs cfg c.sprites c []

/-- Ghost variant of the `buildPrefabNodes` fold without the name
deduplication: every sprite's built prefab, in scan order, threading the
converter (and hence the prefab cache) exactly as the code does. -/
def buildPrefabRawAux (fs : FileSys) (cfg : Config) :
    List SpriteNode → Conv → List PrefabNode × Conv
  | [], c => ([], c)
  | sprite :: rest, c =>
    let pc := buildOnePrefab fs cfg c sprite
    let r := buildPrefabRawAux fs cfg rest pc.2
    (pc.1 :: r.1, r.2)

/-- Spec-side deduplication: keep the first entry for each name not
already in `seen` (first occurrence wins). -/
def dedupSeen (seen : List Str) : List PrefabNode → List PrefabNode
  | [] => []
  | p :: rest =>
    if memStr p.Name seen then dedupSeen seen rest
    else p :: dedupSeen (p.Name :: seen) rest

/-- First-occurrence-wins deduplication by name, as the spec states it. -/
def dedupFirstByName (l : List PrefabNode) : List PrefabNode := dedupSeen [] l

/-! ## Output assembly and the exported entry points -/

/-- Insert a tile source into a list sorted ascending by id. -/
def insertTS (x : TileSource) : List TileSource → List TileSource
  | [] => [x]
  | y :: ys => if x.ID ≤ y.ID then x :: y :: ys else y :: insertTS x ys

/-- `sort.Slice(tilesetSources, ...)`: sort ascending by id.  The source
ids are pairwise distinct (map keys), so the ascending arrangement is
unique and insertion sort models Go's unstable sort exactly. -/
def sortTileSources (l : List TileSource) : List TileSource := l.foldr insertTS []

/-- Assemble the `MapData` returned by `convertTSCNToTileMap`. -/
def assembleMapData (fs : FileSys) (cfg : Config) (st : ScanSt) : MapData :=
  let c := finalizeEnd st.conv
  { TileMap :=
      { Format := st.format, TileSize := cfg.tilemapTileSize,
        TileSet := { Sources := sortTileSources (c.sources.map Prod.snd) },
        Layers := st.layers, WorldTileSize := ⟨0, 0⟩ },
    Decorators := c.decorators, Sprites := c.sprites,
    Prefabs := (buildPrefabNodes fs cfg c).1 }

/-- `convertTSCNToTileMap` (lower case): open the file, reset the global
bounds, run the scanner, assemble.  `GoOutcome.crash` is the slice-bounds
panic reachable in the tile-data branch. -/
def convertTSCNToTileMap (fs : FileSys) (cfg : Config) (g : GState)
    (filename : Str) : GoOutcome (Option MapData × Option GoError) × GState :=
  match fs filename with
  | none => (.val (none, some (.openFailed filename)), g)
  | some lines =>
    match scanLines cfg lines initScanSt with
    | .error _ => (.crash, resetGState g)
    | .ok st => (.val (some (assembleMapData fs cfg st), none), resetGState g)

/-- `ConvertTSCNToTileMap`: run the scanner pass, then overwrite the
layers with `parseLayersFromTSCN`'s result, then validate that the decoded
bounding box has even width and height.  When the scanner pass returned a
nil `MapData` (unopenable file), the field assignment
`data.TileMap.Layers, _ = parseLayersFromTSCN(filename)` dereferences the
nil pointer: `GoOutcome.crash`. -/
def ConvertTSCNToTileMap (fs : FileSys) (cfg : Config) (g : GState)
    (filename : Str) : GoOutcome (Option MapData × Option GoError) × GState :=
  match convertTSCNToTileMap fs cfg g filename with
  | (.crash, g1) => (.crash, g1)
  | (.val (dOpt, err), g1) =>
    let pl := parseLayersFromTSCN fs cfg g1 filename
    let g2 := pl.2
    match dOpt with
    | none => (.crash, g2)
    | some d =>
      let d1 := { d with TileMap := { d.TileMap with Layers := (pl.1.1).getD [] } }
      let diffX := g2.maxTileX - g2.minTileX + 1
      let diffY := g2.maxTileY - g2.minTileY + 1
      if diffX % 2 ≠ 0 ∨ diffY % 2 ≠ 0 then
        (.val (some d1, some (.oddMapSize diffX diffY)), g2)
      else
        (.val (some { d1 with TileMap := { d1.TileMap with WorldTileSize := ⟨diffX, diffY⟩ } }, err),
         g2)

/-- `Parse`: the exported entry point (main.go). -/
def Parse (fs : FileSys) (cfg : Config) (g : GState) (inputFile : Str) :
    GoOutcome (Option MapData × Option GoError) × GState :=
  if inputFile.isEmpty then (.val (none, some .emptyInput), g)
  else ConvertTSCNToTileMap fs cfg g inputFile

/-! ## Statement predicates -/

/-- Line `l` declares the external resource id `i`
(`parseExtResource` stores an entry exactly when its extracted id is
non-empty). -/
def declaresExt (l i : Str) : Prop := (mkExtResource l).ID = i ∧ i ≠ []

/-- Line `l` declares the tileset source id `k` (the `sources/` branch of
`parseSubResource` stores an entry exactly when the extracted id is not -1). -/
def declaresSrc (l : Str) (k : Int) : Prop :=
  startsWith l (strLit "sources/") = true ∧ extractSourceID l = k ∧ k ≠ -1

/-- Fold `parseExtResource` over a list of lines. -/
def foldExt (ls : List Str) (c : Conv) : Conv :=
  ls.foldl (fun c l => parseExtResource l c) c

/-- Fold `parseSubResource` over (line, current sub-resource id) pairs. -/
def foldSub (prs : List (Str × Str)) (c : Conv) : Conv :=
  prs.foldl (fun c pr => parseSubResource pr.1 pr.2 c) c

/-- Whenever a `MapData` is emitted, its tileset sources are strictly
ascending by id (vacuous on crash / no data). -/
def SourcesSortedOutcome : GoOutcome (Option MapData × Option GoError) → Prop
  | .val (some d, _) =>
    d.TileMap.TileSet.Sources.Pairwise (fun a b => a.ID < b.ID)
  | _ => True

/-- Whenever a `MapData` is emitted, its tilemap `tile_size` equals the
package-level configured size (vacuous on crash / no data). -/
def TileSizeOutcome (cfg : Config) :
    GoOutcome (Option MapData × Option GoError) → Prop
  | .val (some d, _) => d.TileMap.TileSize = cfg.tilemapTileSize
  | _ => True

/-! ## Concrete fixtures used by witnesses and counterexamples -/

/-- A concrete initial global state. -/
def g0 : GState := ⟨0, 0, 0, 0, 0⟩

/-- The input path used by the concrete runs. -/
def fileMain : Str := strLit "main.tscn"

/-- A document with exactly one decoded tile placement at (0,0): its
bounding box is 1 by 1, odd in both dimensions. -/
def docOdd : List Str :=
  [strLit "layer_0/name = \"x\"",
   strLit "layer_0/tile_data = PackedInt32Array(0, 0, 0)"]

/-- File system serving `docOdd` at `fileMain`. -/
def fsOdd : FileSys := fun p => if p = fileMain then some docOdd else none

/-- A tile-data line inside the TileMap section whose last `)` lies before
the `PackedInt32Array(` content: the Go scanner slices `line[start:end]`
with `end < start` and panics. -/
def poisonLine : Str := strLit "layer_0/tile_data(x) PackedInt32Array("

/-- A readable document with an odd bounding box (one placement at (0,0))
that also drives the scanner into the unguarded slice. -/
def docPoison : List Str :=
  [strLit "[node name=\"TileMap\" type=\"TileMap\"]", poisonLine,
   strLit "layer_0/name = \"x\"",
   strLit "layer_0/tile_data = PackedInt32Array(0, 0, 0)"]

/-- File system serving `docPoison` at `fileMain`. -/
def fsPoison : FileSys := fun p => if p = fileMain then some docPoison else none

/-- A readable document with zero decodable tile placements that drives
the scanner into the unguarded slice. -/
def docPoisonZero : List Str :=
  [strLit "[node name=\"TileMap\" type=\"TileMap\"]", poisonLine]

/-- File system serving `docPoisonZero` at `fileMain`. -/
def fsPoisonZero : FileSys :=
  fun p => if p = fileMain then some docPoisonZero else none

/-- A benign readable document with zero decodable tile placements. -/
def docNoTiles : List Str := [strLit "hello"]

/-- File system serving `docNoTiles` at `fileMain`. -/
def fsNoTiles : FileSys := fun p => if p = fileMain then some docNoTiles else none

/-- A file system on which every path fails to open. -/
def fsNone : FileSys := fun _ => none

/-- Configuration with a prefab directory set. -/
def cfgPf : Config := { defaultConfig with prefabsDirectory := strLit "pf" }

/-- The declared (unresolved) prefab path used by the cache witness. -/
def pathPf : Str := strLit "res://scenes/a.tscn"

/-- File system containing an empty prefab file at the resolved path. -/
def fsPf : FileSys := fun p => if p = strLit "pf/a.tscn" then some [] else none

/-- The prefab info obtained from parsing the empty prefab file. -/
def infoPf : PrefabInfo :=
  { Name := [], Pivot := ⟨0, 0⟩, ZIndex := 0, Scale := ⟨1, 1⟩, Rotation := 0,
    ColliderType := [], ColliderPivot := ⟨0, 0⟩, ColliderParams := [],
    Texture := [], ColliderParent := [] }

/-- The converter state after the first successful `getPrefabInfo` call. -/
def convPf : Conv := { newTSCNConverter with prefabCache := [(pathPf, infoPf)] }

/-- Two external-resource declarations sharing the id `7_a`. -/
def extLineA : Str :=
  strLit "[ext_resource type=\"Texture2D\" path=\"res://a.png\" id=\"7_a\"]"

/-- Second declaration of id `7_a`, with different fields. -/
def extLineB : Str :=
  strLit "[ext_resource type=\"Texture2D\" path=\"res://b.png\" id=\"7_a\"]"

/-- Two tileset-source declarations sharing source id 3. -/
def srcLineA : Str := strLit "sources/3 = SubResource(\"TA\")"

/-- Second declaration of source id 3. -/
def srcLineB : Str := strLit "sources/3 = SubResource(\"TB\")"

/-- The initial loop state of `parseLayersFromTSCN` over a given global
state. -/
def initLay (g : GState) : LayState :=
  { currentLayerID := -1, currentLayerName := [], currentZIndex := 0,
    currentTileData := [], layers := [], g := g }

/-- The tail of `ConvertTSCNToTileMap` after a readable scan: overwrite
the layers from the layer pass and run the even-dimension validation. -/
def convertAfter (d : MapData) (L : LayState) :
    GoOutcome (Option MapData × Option GoError) × GState :=
  let d1 := { d with TileMap := { d.TileMap with Layers := L.layers } }
  let diffX := L.g.maxTileX - L.g.minTileX + 1
  let diffY := L.g.maxTileY - L.g.minTileY + 1
  if diffX % 2 ≠ 0 ∨ diffY % 2 ≠ 0 then
    (.val (some d1, some (.oddMapSize diffX diffY)), L.g)
  else
    (.val (some { d1 with TileMap := { d1.TileMap with WorldTileSize := ⟨diffX, diffY⟩ } }, none),
     L.g)

/-! ## Association-list lemmas -/

theorem alistFind_insert_self {V : Type} (k : Str) (v : V) (l : List (Str × V)) :
    alistFind k (alistInsert k v l) = some v := by
  induction l with
  | nil => simp [alistInsert, alistFind]
  | cons p rest ih =>
    obtain ⟨k', v'⟩ := p
    by_cases h : k' = k
    · simp [alistInsert, alistFind, h]
    · simp [alistInsert, alistFind, h, ih]

theorem alistFind_insert_ne {V : Type} {k k' : Str} (h : k' ≠ k) (v : V)
    (l : List (Str × V)) : alistFind k (alistInsert k' v l) = alistFind k l := by
  induction l with
  | nil => simp [alistInsert, alistFind, h]
  | cons p rest ih =>
    obtain ⟨k0, v0⟩ := p
    by_cases h0 : k0 = k'
    · subst h0
      simp [alistInsert, alistFind, h, Ne.symm h]
    · by_cases h1 : k0 = k
      · simp [alistInsert, alistFind, h0, h1, Ne.symm h]
      · simp [alistInsert, alistFind, h0, h1, ih]

theorem alistFindI_insert_self {V : Type} (k : Int) (v : V) (l : List (Int × V)) :
    alistFindI k (alistInsertI k v l) = some v := by
  induction l with
  | nil => simp [alistInsertI, alistFindI]
  | cons p rest ih =>
    obtain ⟨k', v'⟩ := p
    by_cases h : k' = k
    · simp [alistInsertI, alistFindI, h]
    · simp [alistInsertI, alistFindI, h, ih]

theorem alistFindI_insert_ne {V : Type} {k k' : Int} (h : k' ≠ k) (v : V)
    (l : List (Int × V)) : alistFindI k (alistInsertI k' v l) = alistFindI k l := by
  induction l with
  | nil => simp [alistInsertI, alistFindI, h]
  | cons p rest ih =>
    obtain ⟨k0, v0⟩ := p
    by_cases h0 : k0 = k'
    · subst h0
      simp [alistInsertI, alistFindI, h, Ne.symm h]
    · by_cases h1 : k0 = k
      · simp [alistInsertI, alistFindI, h0, h1, Ne.symm h]
      · simp [alistInsertI, alistFindI, h0, h1, ih]

/-! ## The tile codec: C1 and C4 -/

/-- Helper for C4: the emitted length only counts complete 3-groups. -/
theorem convLen_aux (cfg : Config) :
    ∀ (n : Nat) (l : List Int), l.length ≤ n →
      ∀ g, (convertTileDataFormat cfg l g).1.length = 5 * (l.length / 3) := by
  intro n
  induction n with
  | zero =>
    intro l hl g
    match l, hl with
    | [], _ => simp [convertTileDataFormat]
  | succ n ihn =>
    intro l hl g
    match l with
    | [] => simp [convertTileDataFormat]
    | [a] => simp [convertTileDataFormat]
    | [a, b] => simp [convertTileDataFormat]
    | a :: b :: c :: rest =>
      have hr : rest.length ≤ n := by simp at hl; omega
      simp only [convertTileDataFormat, List.length_cons]
      rw [ihn rest hr]
      omega

/-- C1: with the pixel offset at its default (0,0) (and the default 16 by
16 tile size), encoding a coordinate pair with each component in
[-32768, 32767] as `((y&0xFFFF)<<16)|(x&0xFFFF)` and running the
3-integer group `[encodedPos, sourceId, encodedAtlas]` through
`convertTileDataFormat` yields exactly `[sourceId, x, -y, atlasX, atlasY]`
with `atlasX = encodedAtlas & 0xFFFF` and
`atlasY = (encodedAtlas >> 16) & 0xFFFF`, without sign correction of the
atlas halves. -/
theorem C1_tile_codec_roundtrip (cfg : Config) (x y src atl : Int) (g : GState)
    (hcfg : cfg.tilemapOffset = ⟨0, 0⟩) (hts : cfg.tilemapTileSize = ⟨16, 16⟩)
    (hx1 : -32768 ≤ x) (hx2 : x ≤ 32767) (hy1 : -32768 ≤ y) (hy2 : y ≤ 32767) :
    (convertTileDataFormat cfg [encodePos x y, src, atl] g).1
      = [src, x, -y, goAnd16 atl, goAnd16 (goShr16 atl)] := by
  have hoff : tileOffsetXY cfg = (0, 0) := by
    simp [tileOffsetXY, hcfg, hts, ratTrunc]
  simp only [convertTileDataFormat, hoff, List.cons.injEq, and_true, true_and]
  refine ⟨?_, ?_⟩
  · simp only [signExtend16, goAnd16, goShr16, encodePos]
    split <;> omega
  · simp only [signExtend16, goAnd16, goShr16, encodePos]
    split <;> omega

/-- Witness for C1 at x = 5, y = -3, sourceId = 7, encodedAtlas = 131074
(atlas (2,2)): the emitted group is [7, 5, 3, 2, 2]. -/
theorem C1_tile_codec_roundtrip_witness :
    (convertTileDataFormat defaultConfig [encodePos 5 (-3), 7, 131074] g0).1
      = [7, 5, 3, 2, 2] := by
  rw [C1_tile_codec_roundtrip defaultConfig 5 (-3) 7 131074 g0 rfl rfl
    (by decide) (by decide) (by decide) (by decide)]
  decide

/-- C4: for every input integer sequence, `convertTileDataFormat` emits
exactly `5 * (n / 3)` integers: one 5-group per complete 3-group, and a
trailing partial group of 1 or 2 integers contributes nothing. -/
theorem C4_output_length_invariant (cfg : Config) (l : List Int) (g : GState) :
    (convertTileDataFormat cfg l g).1.length = 5 * (l.length / 3) :=
  convLen_aux cfg l.length l le_rfl g

/-! ## C3: unreadable input file -/

/-- C3 (failing run): on a file system where `main.tscn` cannot be opened,
`Parse` does not return an error value: `convertTSCNToTileMap` returns a
nil `MapData` with an error, and `ConvertTSCNToTileMap` then assigns
`data.TileMap.Layers` through the nil pointer, a run-time panic. -/
theorem C3_unreadable_file_crash :
    (Parse fsNone defaultConfig g0 fileMain).1 = GoOutcome.crash
      ∧ fsNone fileMain = none :=
  ⟨rfl, rfl⟩

/-! ## C7: the prefab cache -/

/-- C7: when a first `getPrefabInfo` call for a declared path misses the
cache and succeeds, the result is cached under that path; every later
call with the identical declared path returns the cached info with an
unchanged converter, independently of the file system (so the prefab file
is read and parsed exactly once); and any later `getPrefabInfo` call (for
any path) preserves the cached entry. -/
theorem C7_prefab_cache_single_parse (fs : FileSys) (cfg : Config) (c : Conv)
    (path : Str) (info : PrefabInfo) (c' : Conv)
    (hmiss : alistFind path c.prefabCache = none)
    (hrun : getPrefabInfo fs cfg c path = (.ok info, c')) :
    alistFind path c'.prefabCache = some info
    ∧ (∀ fs2 cfg2, getPrefabInfo fs2 cfg2 c' path = (.ok info, c'))
    ∧ (∀ fs2 cfg2 p2,
        alistFind path ((getPrefabInfo fs2 cfg2 c' p2).2).prefabCache = some info) := by
  unfold getPrefabInfo at hrun
  rw [hmiss] at hrun
  by_cases hdir : (resolvePrefabPath cfg path).isEmpty
  · simp [hdir] at hrun
  · simp only [hdir, if_false, Bool.false_eq_true] at hrun
    cases hpp : parsePrefabFile fs (resolvePrefabPath cfg path) with
    | error e => rw [hpp] at hrun; simp at hrun
    | ok i =>
      rw [hpp] at hrun
      simp only [Prod.mk.injEq, Except.ok.injEq] at hrun
      obtain ⟨hi, hc⟩ := hrun
      subst hi
      have hfind : alistFind path c'.prefabCache = some i := by
        rw [← hc]
        exact alistFind_insert_self path i c.prefabCache
      refine ⟨hfind, ?_, ?_⟩
      · intro fs2 cfg2
        unfold getPrefabInfo
        rw [hfind]
      · intro fs2 cfg2 p2
        unfold getPrefabInfo
        cases hp2 : alistFind p2 c'.prefabCache with
        | some j => simpa using hfind
        | none =>
          have hne : p2 ≠ path := by
            intro he
            rw [he, hfind] at hp2
            cases hp2
          by_cases hd2 : (resolvePrefabPath cfg2 p2).isEmpty
          · simpa [hd2] using hfind
          · simp only [hd2, if_false, Bool.false_eq_true]
            cases parsePrefabFile fs2 (resolvePrefabPath cfg2 p2) with
            | error e => simpa using hfind
            | ok j =>
              simpa [alistFind_insert_ne hne] using hfind

/-- Witness for C7: a concrete first call that resolves
`res://scenes/a.tscn` under the prefab directory `pf` and parses the
(empty) prefab file once; the conclusions hold of the cached state. -/
theorem C7_prefab_cache_single_parse_witness :
    alistFind pathPf convPf.prefabCache = some infoPf
    ∧ (∀ fs2 cfg2, getPrefabInfo fs2 cfg2 convPf pathPf = (.ok infoPf, convPf))
    ∧ (∀ fs2 cfg2 p2,
        alistFind pathPf ((getPrefabInfo fs2 cfg2 convPf p2).2).prefabCache = some infoPf) :=
  C7_prefab_cache_single_parse fsPf cfgPf newTSCNConverter pathPf infoPf convPf rfl rfl


/-! ## C8: prefab-list deduplication -/

/-- Helper for C8: the deduplicating fold of `buildPrefabNodes` equals the
spec-side first-wins deduplication of the undeduplicated build list, and
both thread the converter identically. -/
theorem buildAux_eq (fs : FileSys) (cfg : Config) :
    ∀ (sprites : List SpriteNode) (c : Conv) (seen : List Str),
    (buildPrefabNodesAux fs cfg sprites c seen).1
      = dedupSeen seen (buildPrefabRawAux fs cfg sprites c).1
    ∧ (buildPrefabNodesAux fs cfg sprites c seen).2
      = (buildPrefabRawAux fs cfg sprites c).2 := by
  intro sprites
  induction sprites with
  | nil => intro c seen; simp [buildPrefabNodesAux, buildPrefabRawAux, dedupSeen]
  | cons s rest ih =>
    intro c seen
    simp only [buildPrefabNodesAux, buildPrefabRawAux, dedupSeen]
    cases hm : memStr (buildOnePrefab fs cfg c s).1.Name seen with
    | true =>
      simp only [hm, if_true]
      exact ih (buildOnePrefab fs cfg c s).2 seen
    | false =>
      simp only [hm, if_false, Bool.false_eq_true]
      refine ⟨?_, ?_⟩
      · rw [(ih (buildOnePrefab fs cfg c s).2 ((buildOnePrefab fs cfg c s).1.Name :: seen)).1]
      · exact (ih (buildOnePrefab fs cfg c s).2 ((buildOnePrefab fs cfg c s).1.Name :: seen)).2

/-- Unfolding lemma for `memStr`. -/
theorem memStr_cons (n x : Str) (seen : List Str) :
    memStr n (x :: seen) = (n == x || memStr n seen) := rfl

/-- Helper for C8: the deduplicated list has pairwise-distinct names, none
of them in the seen set. -/
theorem dedup_nodup : ∀ (l : List PrefabNode) (seen : List Str),
    ((dedupSeen seen l).map PrefabNode.Name).Nodup
    ∧ ∀ p ∈ dedupSeen seen l, memStr p.Name seen = false := by
  intro l
  induction l with
  | nil => intro seen; simp [dedupSeen]
  | cons p rest ih =>
    intro seen
    simp only [dedupSeen]
    cases hm : memStr p.Name seen with
    | true =>
      simp only [hm, if_true]
      exact ih seen
    | false =>
      simp only [hm, if_false, Bool.false_eq_true]
      refine ⟨?_, ?_⟩
      · rw [List.map_cons, List.nodup_cons]
        refine ⟨?_, (ih (p.Name :: seen)).1⟩
        intro hmem
        rw [List.mem_map] at hmem
        obtain ⟨q, hq, hname⟩ := hmem
        have h2 := (ih (p.Name :: seen)).2 q hq
        rw [memStr_cons] at h2
        simp [hname] at h2
      · intro q hq
        rw [List.mem_cons] at hq
        cases hq with
        | inl he => rw [he]; exact hm
        | inr hq2 =>
          have h2 := (ih (p.Name :: seen)).2 q hq2
          rw [memStr_cons] at h2
          simp at h2
          exact h2.2

/-- C8: the standalone prefabs list built by `buildPrefabNodes` is the
first-occurrence-wins deduplication, by final (possibly
enrichment-overridden) name, of the per-sprite build results taken in
scan order with the cache threaded identically; in particular it holds at
most one entry per final name, and the entry kept is the one derived from
the earliest sprite mapping to that name. -/
theorem C8_prefab_dedup_first_wins (fs : FileSys) (cfg : Config) (c : Conv) :
    (buildPrefabNodes fs cfg c).1
      = dedupFirstByName (buildPrefabRawAux fs cfg c.sprites c).1
    ∧ ((buildPrefabNodes fs cfg c).1.map PrefabNode.Name).Nodup := by
  have h : (buildPrefabNodes fs cfg c).1
      = dedupSeen [] (buildPrefabRawAux fs cfg c.sprites c).1 :=
    (buildAux_eq fs cfg c.sprites c []).1
  refine ⟨h, ?_⟩
  rw [h]
  exact (dedup_nodup (buildPrefabRawAux fs cfg c.sprites c).1 []).1

/-! ## Global-state bookkeeping: C2 and C9 -/

/-- Helper: `convertTileDataFormat` never decreases `tileTotalCount`, and
leaves the global state unchanged exactly when it decoded no group. -/
theorem conv_g_mono (cfg : Config) :
    ∀ (n : Nat) (l : List Int), l.length ≤ n → ∀ g,
      g.tileTotalCount ≤ (convertTileDataFormat cfg l g).2.tileTotalCount
      ∧ ((convertTileDataFormat cfg l g).2.tileTotalCount = g.tileTotalCount →
          (convertTileDataFormat cfg l g).2 = g) := by
  intro n
  induction n with
  | zero =>
    intro l hl g
    match l, hl with
    | [], _ => simp [convertTileDataFormat]
  | succ n ihn =>
    intro l hl g
    match l with
    | [] => simp [convertTileDataFormat]
    | [a] => simp [convertTileDataFormat]
    | [a, b] => simp [convertTileDataFormat]
    | a :: b :: c :: rest =>
      have hr : rest.length ≤ n := by simp at hl; omega
      have hih := ihn rest hr
        (tileBoundsUpd g (signExtend16 (goAnd16 a)) (signExtend16 (goAnd16 (goShr16 a))))
      have hcnt : (tileBoundsUpd g (signExtend16 (goAnd16 a))
          (signExtend16 (goAnd16 (goShr16 a)))).tileTotalCount = g.tileTotalCount + 1 := rfl
      simp only [convertTileDataFormat]
      constructor
      · omega
      · intro hc
        omega

/-- The name branch does not touch the global state. -/
theorem layNameStep_g (line : Str) (st : LayState) : (layNameStep line st).g = st.g := by
  unfold layNameStep
  split
  · split
    · split <;> rfl
    · rfl
  · rfl

/-- The z-index branch does not touch the global state. -/
theorem layZStep_g (line : Str) (st : LayState) : (layZStep line st).g = st.g := by
  unfold layZStep
  split
  · split
    · split <;> rfl
    · rfl
  · rfl

/-- The tile-data branch only changes the global state by decoding groups. -/
theorem layTileStep_g (cfg : Config) (line : Str) (st : LayState) :
    st.g.tileTotalCount ≤ (layTileStep cfg line st).g.tileTotalCount
    ∧ ((layTileStep cfg line st).g.tileTotalCount = st.g.tileTotalCount →
        (layTileStep cfg line st).g = st.g) := by
  unfold layTileStep
  split
  · split
    · simp
    · split
      · simp
      · dsimp only
        split
        · constructor
          · exact (conv_g_mono cfg _ _ le_rfl st.g).1
          · exact fun h => (conv_g_mono cfg _ _ le_rfl st.g).2 h
        · simp
  · simp

/-- One layer-pass line only changes the global state by decoding groups. -/
theorem layStep_g (cfg : Config) (st : LayState) (rawLine : Str) :
    st.g.tileTotalCount ≤ (layersLineStep cfg st rawLine).g.tileTotalCount
    ∧ ((layersLineStep cfg st rawLine).g.tileTotalCount = st.g.tileTotalCount →
        (layersLineStep cfg st rawLine).g = st.g) := by
  unfold layersLineStep
  have h1 := layNameStep_g (goTrimSpace rawLine) st
  have h2 := layZStep_g (goTrimSpace rawLine) (layNameStep (goTrimSpace rawLine) st)
  have h3 := layTileStep_g cfg (goTrimSpace rawLine)
    (layZStep (goTrimSpace rawLine) (layNameStep (goTrimSpace rawLine) st))
  rw [h1] at h2
  rw [h2] at h3
  exact h3

/-- The whole layer pass: the counter is monotone, and an unchanged
counter means an unchanged global state. -/
theorem layFold_g (cfg : Config) :
    ∀ (lines : List Str) (st : LayState),
      st.g.tileTotalCount ≤ (lines.foldl (layersLineStep cfg) st).g.tileTotalCount
      ∧ ((lines.foldl (layersLineStep cfg) st).g.tileTotalCount = st.g.tileTotalCount →
          (lines.foldl (layersLineStep cfg) st).g = st.g) := by
  intro lines
  induction lines with
  | nil => intro st; simp
  | cons l rest ih =>
    intro st
    simp only [List.foldl_cons]
    have hs := layStep_g cfg st l
    have hf := ih (layersLineStep cfg st l)
    constructor
    · omega
    · intro hc
      have he : (layersLineStep cfg st l).g.tileTotalCount = st.g.tileTotalCount := by omega
      rw [hf.2 (by omega), hs.2 he]

/-- Helper: on a readable file whose scan completes, `ConvertTSCNToTileMap`
is the layer-overwrite plus even-dimension validation `convertAfter`. -/
theorem ConvertTSCN_readable (fs : FileSys) (cfg : Config) (g : GState)
    (file : Str) (lines : List Str) (st : ScanSt)
    (hread : fs file = some lines)
    (hscan : scanLines cfg lines initScanSt = Except.ok st) :
    ConvertTSCNToTileMap fs cfg g file
      = convertAfter (assembleMapData fs cfg st)
          (lines.foldl (layersLineStep cfg) (initLay (resetGState g))) := by
  simp only [ConvertTSCNToTileMap, convertTSCNToTileMap, parseLayersFromTSCN,
    hread, hscan, convertAfter, initLay, Option.getD_some]

/-- C2 (amended): for every readable document whose scan completes without
the slice-bounds panic of `extractTileData` and whose decoded tile
placements span a bounding box of odd width or odd height,
`ConvertTSCNToTileMap` returns a non-nil error together with a non-nil
populated `MapData`.  (The un-amended claim is refuted by
`C2_even_dimension_counterexample`: a readable odd-box document can crash
the scanner instead.) -/
theorem C2_even_dimension_validation (fs : FileSys) (cfg : Config) (g : GState)
    (file : Str) (lines : List Str) (st : ScanSt)
    (hread : fs file = some lines)
    (hscan : scanLines cfg lines initScanSt = Except.ok st)
    (hodd : ((parseLayersFromTSCN fs cfg (resetGState g) file).2.maxTileX
          - (parseLayersFromTSCN fs cfg (resetGState g) file).2.minTileX + 1) % 2 ≠ 0
        ∨ ((parseLayersFromTSCN fs cfg (resetGState g) file).2.maxTileY
          - (parseLayersFromTSCN fs cfg (resetGState g) file).2.minTileY + 1) % 2 ≠ 0) :
    ∃ d e, (ConvertTSCNToTileMap fs cfg g file).1 = GoOutcome.val (some d, some e) := by
  have hpl : (parseLayersFromTSCN fs cfg (resetGState g) file).2
      = (lines.foldl (layersLineStep cfg) (initLay (resetGState g))).g := by
    simp [parseLayersFromTSCN, hread, initLay]
  rw [hpl] at hodd
  rw [ConvertTSCN_readable fs cfg g file lines st hread hscan]
  unfold convertAfter
  dsimp only
  rw [if_pos hodd]
  exact ⟨_, _, rfl⟩

/-- Witness for C2: a concrete readable document with one tile placement
at (0,0) (a 1 by 1, hence odd, bounding box) yields data plus error. -/
theorem C2_even_dimension_validation_witness :
    ∃ d e, (ConvertTSCNToTileMap fsOdd defaultConfig g0 fileMain).1
      = GoOutcome.val (some d, some e) :=
  C2_even_dimension_validation fsOdd defaultConfig g0 fileMain docOdd initScanSt
    rfl rfl (by decide)

/-- Counterexample to C2 as stated: `docPoison` is readable, its decoded
placements span an odd (1 by 1) bounding box, yet the conversion panics
in the scanner's unguarded `line[start:end]` slice instead of returning
a (data, error) pair. -/
theorem C2_even_dimension_counterexample :
    fsPoison fileMain = some docPoison
    ∧ (((parseLayersFromTSCN fsPoison defaultConfig (resetGState g0) fileMain).2.maxTileX
        - (parseLayersFromTSCN fsPoison defaultConfig (resetGState g0) fileMain).2.minTileX
        + 1) % 2 ≠ 0)
    ∧ (ConvertTSCNToTileMap fsPoison defaultConfig g0 fileMain).1 = GoOutcome.crash :=
  ⟨rfl, by decide, rfl⟩

/-- C9 (amended): for every readable document whose scan completes without
the slice-bounds panic and which contains zero decodable tile placements
(the global tile counter does not move), the conversion returns a non-nil
error with a populated result: the bounds keep their sentinels
(min 1000000, max -1000000), the computed width and height are -1999999,
and the even-dimension check fails.  (The un-amended claim is refuted by
`C9_no_placements_counterexample`.) -/
theorem C9_no_placements_error (fs : FileSys) (cfg : Config) (g : GState)
    (file : Str) (lines : List Str) (st : ScanSt)
    (hread : fs file = some lines)
    (hscan : scanLines cfg lines initScanSt = Except.ok st)
    (hcount : (ConvertTSCNToTileMap fs cfg g file).2.tileTotalCount = g.tileTotalCount) :
    ∃ d e, (ConvertTSCNToTileMap fs cfg g file).1
      = GoOutcome.val (some d, some e) := by
  rw [ConvertTSCN_readable fs cfg g file lines st hread hscan] at hcount ⊢
  have h2 : (convertAfter (assembleMapData fs cfg st)
      (lines.foldl (layersLineStep cfg) (initLay (resetGState g)))).2
      = (lines.foldl (layersLineStep cfg) (initLay (resetGState g))).g := by
    unfold convertAfter
    dsimp only
    split <;> rfl
  rw [h2] at hcount
  have hini : (initLay (resetGState g)).g.tileTotalCount = g.tileTotalCount := rfl
  have hgr : (lines.foldl (layersLineStep cfg) (initLay (resetGState g))).g
      = resetGState g :=
    (layFold_g cfg lines (initLay (resetGState g))).2 (by rw [hcount, hini])
  unfold convertAfter
  dsimp only
  rw [hgr]
  have hodd : ((resetGState g).maxTileX - (resetGState g).minTileX + 1) % 2 ≠ 0 ∨
      ((resetGState g).maxTileY - (resetGState g).minTileY + 1) % 2 ≠ 0 := by
    simp [resetGState]
  rw [if_pos hodd]
  exact ⟨_, _, rfl⟩

/-- Witness for C9: a readable document with no tile data at all yields a
populated result together with the odd-dimension error. -/
theorem C9_no_placements_error_witness :
    ∃ d e, (ConvertTSCNToTileMap fsNoTiles defaultConfig g0 fileMain).1
      = GoOutcome.val (some d, some e) :=
  C9_no_placements_error fsNoTiles defaultConfig g0 fileMain docNoTiles initScanSt
    rfl rfl (by decide)

/-- Counterexample to C9 as stated: `docPoisonZero` is readable and has
zero decodable tile placements (the counter does not move), yet the
conversion panics in the scanner instead of returning an error value. -/
theorem C9_no_placements_counterexample :
    fsPoisonZero fileMain = some docPoisonZero
    ∧ (ConvertTSCNToTileMap fsPoisonZero defaultConfig g0 fileMain).2.tileTotalCount
        = g0.tileTotalCount
    ∧ (ConvertTSCNToTileMap fsPoisonZero defaultConfig g0 fileMain).1 = GoOutcome.crash :=
  ⟨rfl, rfl, rfl⟩

/-! ## C10: the emitted tile size -/

/-- C10: the tile size derived from a physics polygon (written to the
converter's `tileSize` field) never reaches the output: whenever a
`MapData` is emitted, its `tilemap.tile_size` equals the package-level
configured tile size (default 16 by 16), for every input document and
configuration. -/
theorem C10_tile_size_from_config (fs : FileSys) (cfg : Config) (g : GState)
    (file : Str) : TileSizeOutcome cfg (ConvertTSCNToTileMap fs cfg g file).1 := by
  cases hf : fs file with
  | none => simp [ConvertTSCNToTileMap, convertTSCNToTileMap, hf, TileSizeOutcome]
  | some lines =>
    cases hs : scanLines cfg lines initScanSt with
    | error e => simp [ConvertTSCNToTileMap, convertTSCNToTileMap, hf, hs, TileSizeOutcome]
    | ok st =>
      rw [ConvertTSCN_readable fs cfg g file lines st hf hs]
      unfold convertAfter
      dsimp only
      split
      · exact rfl
      · exact rfl

/-! ## C5: sorted tileset sources -/

/-- No handler but `parseSubResource` writes the sources table. -/
theorem parseExtResource_sources (l : Str) (c : Conv) :
    (parseExtResource l c).sources = c.sources := by
  unfold parseExtResource
  dsimp only
  split <;> rfl

/-- Decorator property lines do not write the sources table. -/
theorem parseDecoratorProperty_sources (l : Str) (c : Conv) :
    (parseDecoratorProperty l c).sources = c.sources := by
  unfold parseDecoratorProperty
  dsimp only
  repeat' split
  all_goals rfl

/-- Sprite property lines do not write the sources table. -/
theorem parseSpriteProperty_sources (cfg : Config) (l : Str) (c : Conv) :
    (parseSpriteProperty cfg l c).sources = c.sources := by
  unfold parseSpriteProperty
  dsimp only
  repeat' split
  all_goals rfl

/-- Node finalization does not write the sources table. -/
theorem finalizeNodes_sources (sec : Sect) (c : Conv) :
    (finalizeNodes sec c).sources = c.sources := by
  unfold finalizeNodes
  dsimp only
  repeat' split
  all_goals rfl

/-- End-of-document finalization does not write the sources table. -/
theorem finalizeEnd_sources (c : Conv) :
    (finalizeEnd c).sources = c.sources := by
  unfold finalizeEnd
  dsimp only
  repeat' split
  all_goals rfl

/-- Membership after a Go-map insert. -/
theorem mem_alistInsertI {V : Type} {k : Int} {v : V} :
    ∀ {l : List (Int × V)} {q : Int × V}, q ∈ alistInsertI k v l → q = (k, v) ∨ q ∈ l := by
  intro l
  induction l with
  | nil =>
    intro q hq
    simp [alistInsertI] at hq
    exact Or.inl hq
  | cons p rest ih =>
    obtain ⟨k0, v0⟩ := p
    intro q hq
    by_cases h0 : k0 = k
    · simp only [alistInsertI, if_pos h0] at hq
      rcases List.mem_cons.mp hq with h | h
      · exact Or.inl h
      · exact Or.inr (List.mem_cons_of_mem _ h)
    · simp only [alistInsertI, if_neg h0] at hq
      rcases List.mem_cons.mp hq with h | h
      · exact Or.inr (by rw [h]; exact List.mem_cons_self _ _)
      · rcases ih h with h2 | h2
        · exact Or.inl h2
        · exact Or.inr (List.mem_cons_of_mem _ h2)

/-- A Go-map insert keeps the keys pairwise distinct. -/
theorem alistInsertI_keys_nodup {V : Type} (k : Int) (v : V) (l : List (Int × V))
    (h : AKeysNodupI l) : AKeysNodupI (alistInsertI k v l) := by
  induction l with
  | nil => simp [alistInsertI, AKeysNodupI]
  | cons p rest ih =>
    obtain ⟨k0, v0⟩ := p
    rw [AKeysNodupI, List.pairwise_cons] at h
    by_cases h0 : k0 = k
    · simp only [alistInsertI, if_pos h0]
      rw [AKeysNodupI, List.pairwise_cons]
      refine ⟨?_, h.2⟩
      intro q hq
      show k ≠ q.1
      rw [← h0]
      exact h.1 q hq
    · simp only [alistInsertI, if_neg h0]
      rw [AKeysNodupI, List.pairwise_cons]
      refine ⟨?_, ih h.2⟩
      intro q hq
      rcases mem_alistInsertI hq with h2 | h2
      · rw [h2]; exact fun he => h0 he
      · exact h.1 q h2

/-- A Go-map insert preserves a pointwise property of the entries. -/
theorem alistInsertI_forall {V : Type} (P : Int × V → Prop) (k : Int) (v : V)
    (l : List (Int × V)) (h : ∀ p ∈ l, P p) (hkv : P (k, v)) :
    ∀ p ∈ alistInsertI k v l, P p := by
  intro p hp
  rcases mem_alistInsertI hp with h2 | h2
  · rw [h2]; exact hkv
  · exact h p h2

/-- `parseSubResource` preserves well-formedness of the sources table:
keys stay pairwise distinct and each stored `TileSource` carries its key
as its id. -/
theorem parseSubResource_wf (l rid : Str) (c : Conv)
    (h : AKeysNodupI c.sources ∧ ∀ p ∈ c.sources, p.2.ID = p.1) :
    AKeysNodupI (parseSubResource l rid c).sources
    ∧ ∀ p ∈ (parseSubResource l rid c).sources, p.2.ID = p.1 := by
  unfold parseSubResource
  dsimp only
  repeat' split
  all_goals try exact h
  constructor
  · exact alistInsertI_keys_nodup _ _ _ h.1
  · exact alistInsertI_forall _ _ _ _ h.2 rfl

/-- One scanner line preserves well-formedness of the sources table. -/
theorem scanStep_wf (cfg : Config) (st : ScanSt) (line : Str)
    (h : AKeysNodupI st.conv.sources ∧ ∀ p ∈ st.conv.sources, p.2.ID = p.1) :
    ∀ st', scanStep cfg st line = Except.ok st' →
      AKeysNodupI st'.conv.sources ∧ ∀ p ∈ st'.conv.sources, p.2.ID = p.1 := by
  intro st'
  unfold scanStep
  dsimp only
  repeat' split
  all_goals intro he
  all_goals try (exfalso; exact Except.noConfusion he)
  all_goals injection he with he2
  all_goals subst he2
  all_goals
    first
      | exact h
      | exact parseSubResource_wf _ _ _ h
      | simpa only [parseExtResource_sources, finalizeNodes_sources,
          parseDecoratorProperty_sources, parseSpriteProperty_sources] using h

/-- The whole scan preserves well-formedness of the sources table. -/
theorem scanLines_wf (cfg : Config) : ∀ (lines : List Str) (st st' : ScanSt),
    scanLines cfg lines st = Except.ok st' →
    (AKeysNodupI st.conv.sources ∧ ∀ p ∈ st.conv.sources, p.2.ID = p.1) →
    AKeysNodupI st'.conv.sources ∧ ∀ p ∈ st'.conv.sources, p.2.ID = p.1 := by
  intro lines
  induction lines with
  | nil =>
    intro st st' he h
    unfold scanLines at he
    injection he with he2
    subst he2
    exact h
  | cons l rest ih =>
    intro st st' he h
    unfold scanLines at he
    cases hstep : scanStep cfg st l with
    | error e => rw [hstep] at he; exact Except.noConfusion he
    | ok st1 =>
      rw [hstep] at he
      exact ih st1 st' he (scanStep_wf cfg st l h st1 hstep)

/-- Membership after a sorted insert. -/
theorem mem_insertTS {x a : TileSource} :
    ∀ {l : List TileSource}, a ∈ insertTS x l → a = x ∨ a ∈ l := by
  intro l
  induction l with
  | nil =>
    intro h
    simp [insertTS] at h
    exact Or.inl h
  | cons y ys ih =>
    intro h
    unfold insertTS at h
    split at h
    · rcases List.mem_cons.mp h with h | h
      · exact Or.inl h
      · exact Or.inr h
    · rcases List.mem_cons.mp h with h | h
      · exact Or.inr (by rw [h]; exact List.mem_cons_self _ _)
      · rcases ih h with h2 | h2
        · exact Or.inl h2
        · exact Or.inr (List.mem_cons_of_mem _ h2)

/-- Sorted insert preserves the nondecreasing-by-id arrangement. -/
theorem insertTS_pairwise (x : TileSource) :
    ∀ (l : List TileSource), l.Pairwise (fun p q => p.ID ≤ q.ID) →
      (insertTS x l).Pairwise (fun p q => p.ID ≤ q.ID) := by
  intro l
  induction l with
  | nil => intro _; simp [insertTS]
  | cons y ys ih =>
    intro h
    rw [List.pairwise_cons] at h
    unfold insertTS
    split
    · rename_i hxy
      rw [List.pairwise_cons]
      refine ⟨?_, ?_⟩
      · intro q hq
        rcases List.mem_cons.mp hq with h2 | h2
        · rw [h2]; exact hxy
        · exact le_trans hxy (h.1 q h2)
      · rw [List.pairwise_cons]
        exact h
    · rename_i hxy
      rw [List.pairwise_cons]
      refine ⟨?_, ih h.2⟩
      intro q hq
      rcases mem_insertTS hq with h2 | h2
      · rw [h2]; omega
      · exact h.1 q h2

/-- The sorted sources list is nondecreasing by id. -/
theorem sortTS_pairwise : ∀ (l : List TileSource),
    (sortTileSources l).Pairwise (fun p q => p.ID ≤ q.ID) := by
  intro l
  induction l with
  | nil => simp [sortTileSources]
  | cons x xs ih =>
    simp only [sortTileSources, List.foldr_cons] at ih ⊢
    exact insertTS_pairwise x _ ih

/-- Sorted insert is a permutation of consing. -/
theorem insertTS_perm (x : TileSource) :
    ∀ (l : List TileSource), (insertTS x l).Perm (x :: l) := by
  intro l
  induction l with
  | nil => simp [insertTS]
  | cons y ys ih =>
    unfold insertTS
    split
    · exact List.Perm.refl _
    · exact ((ih.cons y).trans (List.Perm.swap x y ys))

/-- Sorting permutes the sources list. -/
theorem sortTS_perm : ∀ (l : List TileSource), (sortTileSources l).Perm l := by
  intro l
  induction l with
  | nil => simp [sortTileSources]
  | cons x xs ih =>
    simp only [sortTileSources, List.foldr_cons] at ih ⊢
    exact (insertTS_perm x _).trans (ih.cons x)

/-- Nondecreasing by id plus distinct ids gives strictly ascending. -/
theorem pairwise_lt_of_le_nodup : ∀ (l : List TileSource),
    l.Pairwise (fun p q => p.ID ≤ q.ID) → (l.map TileSource.ID).Nodup →
    l.Pairwise (fun p q => p.ID < q.ID) := by
  intro l
  induction l with
  | nil => intro _ _; simp
  | cons a rest ih =>
    intro hle hnd
    rw [List.pairwise_cons] at hle ⊢
    rw [List.map_cons, List.nodup_cons] at hnd
    refine ⟨?_, ih hle.2 hnd.2⟩
    intro q hq
    have h1 := hle.1 q hq
    have h2 : a.ID ≠ q.ID := by
      intro he
      exact hnd.1 (he ▸ List.mem_map_of_mem TileSource.ID hq)
    omega

/-- C5: for every parsed document (any file system, any configuration),
whenever a `MapData` is emitted its tileset sources list is strictly
ascending by id, regardless of the declaration order in the document:
the sources live in a map keyed by id (so ids are pairwise distinct) and
the assembler sorts the values ascending by id before emission. -/
theorem C5_sources_sorted (fs : FileSys) (cfg : Config) (g : GState) (file : Str) :
    SourcesSortedOutcome (ConvertTSCNToTileMap fs cfg g file).1 := by
  cases hf : fs file with
  | none => simp [ConvertTSCNToTileMap, convertTSCNToTileMap, hf, SourcesSortedOutcome]
  | some lines =>
    cases hs : scanLines cfg lines initScanSt with
    | error e =>
      simp [ConvertTSCNToTileMap, convertTSCNToTileMap, hf, hs, SourcesSortedOutcome]
    | ok st =>
      rw [ConvertTSCN_readable fs cfg g file lines st hf hs]
      have hwf := scanLines_wf cfg lines initScanSt st hs
        ⟨by simp [initScanSt, newTSCNConverter, AKeysNodupI],
         by simp [initScanSt, newTSCNConverter]⟩
      have hwf2 : AKeysNodupI (finalizeEnd st.conv).sources
          ∧ ∀ p ∈ (finalizeEnd st.conv).sources, p.2.ID = p.1 := by
        rw [finalizeEnd_sources]
        exact hwf
      have h1 : (((finalizeEnd st.conv).sources.map Prod.snd).map TileSource.ID).Nodup := by
        rw [List.map_map]
        have he : (finalizeEnd st.conv).sources.map (TileSource.ID ∘ Prod.snd)
            = (finalizeEnd st.conv).sources.map Prod.fst :=
          List.map_congr_left (fun p hp => hwf2.2 p hp)
        rw [he]
        exact List.Pairwise.map Prod.fst (fun a b hab => hab) hwf2.1
      have hnodup : ((sortTileSources ((finalizeEnd st.conv).sources.map Prod.snd)).map
          TileSource.ID).Nodup :=
        (((sortTS_perm _).map TileSource.ID).nodup_iff).mpr h1
      have hlt := pairwise_lt_of_le_nodup _ (sortTS_pairwise _) hnodup
      unfold convertAfter
      dsimp only
      split
      · exact hlt
      · exact hlt

/-! ## C6: last-write-wins resource tables -/

/-- Count of entries with key `k` is zero when no entry has that key. -/
theorem countKeyI_eq_zero {V : Type} (k : Int) (l : List (Int × V))
    (h : ∀ p ∈ l, p.1 ≠ k) : countKeyI k l = 0 := by
  induction l with
  | nil => rfl
  | cons p rest ih =>
    rw [countKeyI, List.countP_cons]
    have h1 : p.1 ≠ k := h p (List.mem_cons_self _ _)
    have h2 := ih (fun q hq => h q (List.mem_cons_of_mem _ hq))
    rw [countKeyI] at h2
    simp [h1, h2]

/-- Inserting under another key does not change the count of key `k`. -/
theorem countKeyI_insert_ne {V : Type} {k k' : Int} (h : k' ≠ k) (v : V)
    (l : List (Int × V)) : countKeyI k (alistInsertI k' v l) = countKeyI k l := by
  induction l with
  | nil => simp [alistInsertI, countKeyI, List.countP_cons, h]
  | cons p rest ih =>
    obtain ⟨k0, v0⟩ := p
    by_cases h0 : k0 = k'
    · subst h0
      simp only [alistInsertI, eq_self_iff_true, if_true]
      simp [countKeyI, List.countP_cons, h]
    · simp only [alistInsertI, if_neg h0, countKeyI, List.countP_cons]
      simp only [countKeyI] at ih
      omega

/-- After an insert at key `k` into a nodup-key map, key `k` has exactly
one entry. -/
theorem countKeyI_insert_self {V : Type} (k : Int) (v : V) (l : List (Int × V))
    (h : AKeysNodupI l) : countKeyI k (alistInsertI k v l) = 1 := by
  induction l with
  | nil => simp [alistInsertI, countKeyI, List.countP_cons]
  | cons p rest ih =>
    obtain ⟨k0, v0⟩ := p
    rw [AKeysNodupI, List.pairwise_cons] at h
    by_cases h0 : k0 = k
    · subst h0
      simp only [alistInsertI, eq_self_iff_true, if_true]
      have hz : countKeyI k0 rest = 0 :=
        countKeyI_eq_zero k0 rest (fun q hq => (h.1 q hq).symm)
      rw [countKeyI] at hz ⊢
      rw [List.countP_cons]
      simp [hz]
    · simp only [alistInsertI, if_neg h0]
      have h2 := ih h.2
      rw [countKeyI] at h2 ⊢
      rw [List.countP_cons]
      simp [h2, h0]

/-- Membership after a Go-map insert (`Str` keys). -/
theorem mem_alistInsert {V : Type} {k : Str} {v : V} :
    ∀ {l : List (Str × V)} {q : Str × V}, q ∈ alistInsert k v l → q = (k, v) ∨ q ∈ l := by
  intro l
  induction l with
  | nil =>
    intro q hq
    simp [alistInsert] at hq
    exact Or.inl hq
  | cons p rest ih =>
    obtain ⟨k0, v0⟩ := p
    intro q hq
    by_cases h0 : k0 = k
    · simp only [alistInsert, if_pos h0] at hq
      rcases List.mem_cons.mp hq with h | h
      · exact Or.inl h
      · exact Or.inr (List.mem_cons_of_mem _ h)
    · simp only [alistInsert, if_neg h0] at hq
      rcases List.mem_cons.mp hq with h | h
      · exact Or.inr (by rw [h]; exact List.mem_cons_self _ _)
      · rcases ih h with h2 | h2
        · exact Or.inl h2
        · exact Or.inr (List.mem_cons_of_mem _ h2)

/-- A Go-map insert keeps the keys pairwise distinct (`Str` keys). -/
theorem alistInsert_keys_nodup {V : Type} (k : Str) (v : V) (l : List (Str × V))
    (h : AKeysNodupS l) : AKeysNodupS (alistInsert k v l) := by
  induction l with
  | nil => simp [alistInsert, AKeysNodupS]
  | cons p rest ih =>
    obtain ⟨k0, v0⟩ := p
    rw [AKeysNodupS, List.pairwise_cons] at h
    by_cases h0 : k0 = k
    · simp only [alistInsert, if_pos h0]
      rw [AKeysNodupS, List.pairwise_cons]
      refine ⟨?_, h.2⟩
      intro q hq
      show k ≠ q.1
      rw [← h0]
      exact h.1 q hq
    · simp only [alistInsert, if_neg h0]
      rw [AKeysNodupS, List.pairwise_cons]
      refine ⟨?_, ih h.2⟩
      intro q hq
      rcases mem_alistInsert hq with h2 | h2
      · rw [h2]; exact fun he => h0 he
      · exact h.1 q h2

/-- Count of entries with key `k` is zero when no entry has that key. -/
theorem countKeyS_eq_zero {V : Type} (k : Str) (l : List (Str × V))
    (h : ∀ p ∈ l, p.1 ≠ k) : countKeyS k l = 0 := by
  induction l with
  | nil => rfl
  | cons p rest ih =>
    rw [countKeyS, List.countP_cons]
    have h1 : p.1 ≠ k := h p (List.mem_cons_self _ _)
    have h2 := ih (fun q hq => h q (List.mem_cons_of_mem _ hq))
    rw [countKeyS] at h2
    simp [h1, h2]

/-- Inserting under another key does not change the count of key `k`. -/
theorem countKeyS_insert_ne {V : Type} {k k' : Str} (h : k' ≠ k) (v : V)
    (l : List (Str × V)) : countKeyS k (alistInsert k' v l) = countKeyS k l := by
  induction l with
  | nil => simp [alistInsert, countKeyS, List.countP_cons, h]
  | cons p rest ih =>
    obtain ⟨k0, v0⟩ := p
    by_cases h0 : k0 = k'
    · subst h0
      simp only [alistInsert, eq_self_iff_true, if_true]
      simp [countKeyS, List.countP_cons, h]
    · simp only [alistInsert, if_neg h0, countKeyS, List.countP_cons]
      simp only [countKeyS] at ih
      omega

/-- After an insert at key `k` into a nodup-key map, key `k` has exactly
one entry (`Str` keys). -/
theorem countKeyS_insert_self {V : Type} (k : Str) (v : V) (l : List (Str × V))
    (h : AKeysNodupS l) : countKeyS k (alistInsert k v l) = 1 := by
  induction l with
  | nil => simp [alistInsert, countKeyS, List.countP_cons]
  | cons p rest ih =>
    obtain ⟨k0, v0⟩ := p
    rw [AKeysNodupS, List.pairwise_cons] at h
    by_cases h0 : k0 = k
    · subst h0
      simp only [alistInsert, eq_self_iff_true, if_true]
      have hz : countKeyS k0 rest = 0 :=
        countKeyS_eq_zero k0 rest (fun q hq => (h.1 q hq).symm)
      rw [countKeyS] at hz ⊢
      rw [List.countP_cons]
      simp [hz]
    · simp only [alistInsert, if_neg h0]
      have h2 := ih h.2
      rw [countKeyS] at h2 ⊢
      rw [List.countP_cons]
      simp [h2, h0]

/-- Two prefixes of the same string are comparable. -/
theorem startsWith_conflict : ∀ (l p q : Str),
    startsWith l p = true → startsWith l q = true →
    startsWith p q = true ∨ startsWith q p = true := by
  intro l
  induction l with
  | nil =>
    intro p q hp hq
    match p, hp with
    | [], _ =>
      match q, hq with
      | [], _ => exact Or.inl rfl
  | cons c t ih =>
    intro p q hp hq
    match p with
    | [] =>
      right
      match q with
      | [] => rfl
      | b :: qs => rfl
    | a :: ps =>
      match q with
      | [] => exact Or.inl rfl
      | b :: qs =>
        rw [startsWith, Bool.and_eq_true] at hp hq
        have ha : c = a := by
          have := hp.1
          simpa using this
        have hb : c = b := by
          have := hq.1
          simpa using this
        rcases ih ps qs hp.2 hq.2 with h | h
        · left
          rw [startsWith, Bool.and_eq_true]
          exact ⟨by rw [← ha, ← hb]; simp, h⟩
        · right
          rw [startsWith, Bool.and_eq_true]
          exact ⟨by rw [← ha, ← hb]; simp, h⟩

/-- A `sources/` line matches none of the earlier prefixes in the
`parseSubResource` dispatch chain. -/
theorem not_startsWith_of_sources (l : Str)
    (h : startsWith l (strLit "sources/") = true) :
    startsWith l (strLit "texture = ExtResource(") = false
    ∧ startsWith l (strLit "size = Vector2(") = false
    ∧ startsWith l (strLit "radius = ") = false
    ∧ startsWith l (strLit "points = PackedVector2Array(") = false
    ∧ startsWith l (strLit "0:0/0/physics_layer_0/polygon_0/points") = false := by
  refine ⟨?_, ?_, ?_, ?_, ?_⟩
  all_goals
    cases hx : startsWith l _
  case _ => rfl
  all_goals try rfl
  all_goals exact absurd (startsWith_conflict l _ _ hx h) (by decide)

/-- A declaring line stores its record under its id. -/
theorem parseExtResource_declares (l : Str) (c : Conv) (i : Str)
    (h : declaresExt l i) :
    (parseExtResource l c).extResources = alistInsert i (mkExtResource l) c.extResources := by
  have hie : i.isEmpty = false := by
    cases i with
    | nil => exact absurd rfl h.2
    | cons a t => rfl
  unfold parseExtResource
  dsimp only
  rw [h.1, hie]
  simp

/-- A non-declaring line leaves the entry and the count of id `i` alone. -/
theorem parseExtResource_preserve (l : Str) (c : Conv) (i : Str) (hi : i ≠ [])
    (hnd : ¬ declaresExt l i) :
    alistFind i (parseExtResource l c).extResources = alistFind i c.extResources
    ∧ countKeyS i (parseExtResource l c).extResources = countKeyS i c.extResources := by
  unfold parseExtResource
  dsimp only
  split
  · exact ⟨rfl, rfl⟩
  · have hneq : (mkExtResource l).ID ≠ i := by
      intro he
      exact hnd ⟨he, hi⟩
    exact ⟨alistFind_insert_ne hneq _ _, countKeyS_insert_ne hneq _ _⟩

/-- `parseExtResource` keeps the table's keys pairwise distinct. -/
theorem parseExtResource_nodup (l : Str) (c : Conv)
    (h : AKeysNodupS c.extResources) : AKeysNodupS (parseExtResource l c).extResources := by
  unfold parseExtResource
  dsimp only
  split
  · exact h
  · exact alistInsert_keys_nodup _ _ _ h

/-- The external-resource fold keeps the keys pairwise distinct. -/
theorem foldExt_nodup : ∀ (ls : List Str) (c : Conv),
    AKeysNodupS c.extResources → AKeysNodupS (foldExt ls c).extResources := by
  intro ls
  induction ls with
  | nil => intro c h; exact h
  | cons l rest ih =>
    intro c h
    exact ih (parseExtResource l c) (parseExtResource_nodup l c h)

/-- A run of non-declaring lines preserves entry and count of id `i`. -/
theorem foldExt_preserve (i : Str) (hi : i ≠ []) : ∀ (ls : List Str) (c : Conv),
    (∀ l ∈ ls, ¬ declaresExt l i) →
    alistFind i (foldExt ls c).extResources = alistFind i c.extResources
    ∧ countKeyS i (foldExt ls c).extResources = countKeyS i c.extResources := by
  intro ls
  induction ls with
  | nil => intro c _; exact ⟨rfl, rfl⟩
  | cons l rest ih =>
    intro c h
    have h1 := parseExtResource_preserve l c i hi (h l (List.mem_cons_self _ _))
    have h2 := ih (parseExtResource l c) (fun q hq => h q (List.mem_cons_of_mem _ hq))
    exact ⟨h2.1.trans h1.1, h2.2.trans h1.2⟩

/-- A `sources/` declaration inserts the `TileSource` built from the
current state under the declared id. -/
theorem parseSubResource_declares (l rid : Str) (c : Conv) (k : Int)
    (h : declaresSrc l k) :
    (parseSubResource l rid c).sources = alistInsertI k (mkTileSource c l) c.sources := by
  obtain ⟨hsw, hk, hkne⟩ := h
  have hns := not_startsWith_of_sources l hsw
  unfold parseSubResource
  dsimp only
  rw [hns.1, hns.2.1, hns.2.2.1, hns.2.2.2.1, hns.2.2.2.2, hsw]
  rw [hk]
  simp [hkne]

/-- A line not declaring source id `k` preserves that id's entry/count. -/
theorem parseSubResource_preserveK (l rid : Str) (c : Conv) (k : Int) (hk : k ≠ -1)
    (hnd : ¬ declaresSrc l k) :
    alistFindI k (parseSubResource l rid c).sources = alistFindI k c.sources
    ∧ countKeyI k (parseSubResource l rid c).sources = countKeyI k c.sources := by
  unfold parseSubResource
  dsimp only
  repeat' split
  all_goals try exact ⟨rfl, rfl⟩
  rename_i hsw h2
  have hneq : extractSourceID l ≠ k := by
    intro he
    exact hnd ⟨hsw, he, hk⟩
  exact ⟨alistFindI_insert_ne hneq _ _, countKeyI_insert_ne hneq _ _⟩

/-- `parseSubResource` keeps the sources keys pairwise distinct. -/
theorem parseSubResource_nodup (l rid : Str) (c : Conv)
    (h : AKeysNodupI c.sources) : AKeysNodupI (parseSubResource l rid c).sources := by
  unfold parseSubResource
  dsimp only
  repeat' split
  all_goals try exact h
  exact alistInsertI_keys_nodup _ _ _ h

/-- The sub-resource fold keeps the sources keys pairwise distinct. -/
theorem foldSub_nodup : ∀ (prs : List (Str × Str)) (c : Conv),
    AKeysNodupI c.sources → AKeysNodupI (foldSub prs c).sources := by
  intro prs
  induction prs with
  | nil => intro c h; exact h
  | cons p rest ih =>
    intro c h
    exact ih (parseSubResource p.1 p.2 c) (parseSubResource_nodup p.1 p.2 c h)

/-- A run of lines not declaring source id `k` preserves its entry/count. -/
theorem foldSub_preserveK (k : Int) (hk : k ≠ -1) : ∀ (prs : List (Str × Str)) (c : Conv),
    (∀ p ∈ prs, ¬ declaresSrc p.1 k) →
    alistFindI k (foldSub prs c).sources = alistFindI k c.sources
    ∧ countKeyI k (foldSub prs c).sources = countKeyI k c.sources := by
  intro prs
  induction prs with
  | nil => intro c _; exact ⟨rfl, rfl⟩
  | cons p rest ih =>
    intro c h
    have h1 := parseSubResource_preserveK p.1 p.2 c k hk (h p (List.mem_cons_self _ _))
    have h2 := ih (parseSubResource p.1 p.2 c) (fun q hq => h q (List.mem_cons_of_mem _ hq))
    exact ⟨h2.1.trans h1.1, h2.2.trans h1.2⟩

/-- C6: last-write-wins resource tables.  If a document declares the same
external-resource id more than once (here: at `l1` and last at `l2`, with
no later declaration of that id), the resulting table holds exactly one
entry for that id, carrying the fields of the later declaration; the same
holds for tileset source ids in `parseSubResource`, where the later
declaration's `TileSource` is built from the table state in effect at
that declaration. -/
theorem C6_last_write_wins :
    (∀ (c : Conv) (pre mid post : List Str) (l1 l2 i : Str),
       AKeysNodupS c.extResources →
       declaresExt l1 i → declaresExt l2 i → (∀ l ∈ post, ¬ declaresExt l i) →
       countKeyS i (foldExt (pre ++ l1 :: mid ++ l2 :: post) c).extResources = 1
       ∧ alistFind i (foldExt (pre ++ l1 :: mid ++ l2 :: post) c).extResources
           = some (mkExtResource l2))
    ∧ (∀ (c : Conv) (pre mid post : List (Str × Str)) (p1 p2 : Str × Str) (k : Int),
       AKeysNodupI c.sources →
       declaresSrc p1.1 k → declaresSrc p2.1 k → (∀ p ∈ post, ¬ declaresSrc p.1 k) →
       countKeyI k (foldSub (pre ++ p1 :: mid ++ p2 :: post) c).sources = 1
       ∧ alistFindI k (foldSub (pre ++ p1 :: mid ++ p2 :: post) c).sources
           = some (mkTileSource (foldSub (pre ++ p1 :: mid) c) p2.1)) := by
  constructor
  · intro c pre mid post l1 l2 i hnod h1 h2 hpost
    have hi : i ≠ [] := h2.2
    have hsplit : foldExt (pre ++ l1 :: mid ++ l2 :: post) c
        = foldExt post (parseExtResource l2 (foldExt (pre ++ l1 :: mid) c)) := by
      simp [foldExt, List.foldl_append]
    set cmid := foldExt (pre ++ l1 :: mid) c with hcmid
    have hmidnod : AKeysNodupS cmid.extResources := foldExt_nodup _ c hnod
    have hdec := parseExtResource_declares l2 cmid i h2
    have hp := foldExt_preserve i hi post (parseExtResource l2 cmid) hpost
    rw [hsplit]
    constructor
    · rw [hp.2, hdec]
      exact countKeyS_insert_self i (mkExtResource l2) cmid.extResources hmidnod
    · rw [hp.1, hdec]
      exact alistFind_insert_self i (mkExtResource l2) cmid.extResources
  · intro c pre mid post p1 p2 k hnod h1 h2 hpost
    have hk : k ≠ -1 := h2.2.2
    have hsplit : foldSub (pre ++ p1 :: mid ++ p2 :: post) c
        = foldSub post (parseSubResource p2.1 p2.2 (foldSub (pre ++ p1 :: mid) c)) := by
      simp [foldSub, List.foldl_append]
    set cmid := foldSub (pre ++ p1 :: mid) c with hcmid
    have hmidnod : AKeysNodupI cmid.sources := foldSub_nodup _ c hnod
    have hdec := parseSubResource_declares p2.1 p2.2 cmid k h2
    have hp := foldSub_preserveK k hk post (parseSubResource p2.1 p2.2 cmid) hpost
    rw [hsplit]
    constructor
    · rw [hp.2, hdec]
      exact countKeyI_insert_self k (mkTileSource cmid p2.1) cmid.sources hmidnod
    · rw [hp.1, hdec]
      exact alistFindI_insert_self k (mkTileSource cmid p2.1) cmid.sources

/-- Witness for C6: two concrete declarations of ext-resource id `7_a`
and two of tileset source id 3; the tables end with exactly one entry
each, carrying the later declaration's fields. -/
theorem C6_last_write_wins_witness :
    (countKeyS (strLit "7_a")
        (foldExt ([] ++ extLineA :: [] ++ extLineB :: []) newTSCNConverter).extResources = 1
      ∧ alistFind (strLit "7_a")
          (foldExt ([] ++ extLineA :: [] ++ extLineB :: []) newTSCNConverter).extResources
          = some (mkExtResource extLineB))
    ∧ (countKeyI 3
        (foldSub ([] ++ (srcLineA, []) :: [] ++ (srcLineB, []) :: []) newTSCNConverter).sources = 1
      ∧ alistFindI 3
          (foldSub ([] ++ (srcLineA, []) :: [] ++ (srcLineB, []) :: []) newTSCNConverter).sources
          = some (mkTileSource (foldSub ([] ++ (srcLineA, []) :: []) newTSCNConverter) srcLineB)) := by
  constructor
  · exact C6_last_write_wins.1 newTSCNConverter [] [] [] extLineA extLineB (strLit "7_a")
      List.Pairwise.nil (by exact ⟨by decide, by decide⟩) (by exact ⟨by decide, by decide⟩)
      (fun l hl => absurd hl (List.not_mem_nil l))
  · exact C6_last_write_wins.2 newTSCNConverter [] [] [] (srcLineA, []) (srcLineB, []) 3
      List.Pairwise.nil (by exact ⟨by decide, by decide, by decide⟩)
      (by exact ⟨by decide, by decide, by decide⟩)
      (fun p hp => absurd hp (List.not_mem_nil p))
